import Mathlib

/-!
Shallow embedding of the dotthz-rs metadata codec (src/dotthz.rs).

The Rust crate stores a `DotthzMetaData` record as scalar HDF5 attributes on a
group and reads it back.  We model a group's attribute store as an association
list from attribute names to attribute values; the HDF5 calls the codec makes
(`attr`, `new_attr::<VarLenUnicode>`, `write_scalar`, `write_raw`,
`read_raw::<VarLenUnicode>`, `read_raw::<f32>`) are modelled by explicit
functions on that store.  Rust strings are modelled as lists of characters so
that splitting, joining and trimming can be reasoned about by list induction.
f32 values are kept opaque (represented by `Nat` bit patterns); the behaviour
of Rust's `str::parse::<f32>` and `format!` on f32 is passed in as explicit
function parameters, since it is external to the crate.
-/

namespace Dotthz

/-- Rust `String` / `str`, modelled as its list of characters. -/
abbrev Str := List Char

/-- Rust `char::is_whitespace`: the Unicode `White_Space` property. -/
def isRustWhitespace (c : Char) : Bool :=
  (0x09 ≤ c.toNat && c.toNat ≤ 0x0D) || c.toNat == 0x20 || c.toNat == 0x85 ||
  c.toNat == 0xA0 || c.toNat == 0x1680 ||
  (0x2000 ≤ c.toNat && c.toNat ≤ 0x200A) || c.toNat == 0x2028 ||
  c.toNat == 0x2029 || c.toNat == 0x202F || c.toNat == 0x205F ||
  c.toNat == 0x3000

/-- Rust `str::trim`: drop leading and trailing whitespace. -/
def rustTrim (s : Str) : Str :=
  ((s.dropWhile isRustWhitespace).reverse.dropWhile isRustWhitespace).reverse

/-- `hdf5::types::VarLenUnicode::from_str`: fails (with a `StringError`) iff
the string contains an interior nul character, since the value is stored as a
C string; otherwise the text is kept unchanged. -/
def vluFromStr (s : Str) : Option Str :=
  if s.contains (Char.ofNat 0) then none else some s

/-- Rust `str::split('/')` (the char-pattern split used on the composite
`user` attribute): splits on every occurrence of the character. -/
def splitChar (c : Char) : Str → List Str
  | [] => [[]]
  | x :: xs =>
    if x = c then [] :: splitChar c xs
    else
      match splitChar c xs with
      | r :: rs => (x :: r) :: rs
      | [] => [[x]]

/-- Rust `str::split(", ")` with the fixed two-character separator used by the
descriptor attributes: leftmost-first, non-overlapping matches. -/
def splitCommaSpace : Str → List Str
  | ',' :: ' ' :: rest => [] :: splitCommaSpace rest
  | c :: rest =>
    match splitCommaSpace rest with
    | r :: rs => (c :: r) :: rs
    | [] => [[c]]
  | [] => [[]]

/-- Rust `[String]::join(", ")`, as used for the descriptor attributes. -/
def joinCommaSpace : List Str → Str
  | [] => []
  | [x] => x
  | x :: y :: xs => x ++ ',' :: ' ' :: joinCommaSpace (y :: xs)

/-- Whether the string contains the two-character substring of a comma
followed by a space (an occurrence of the descriptor separator). -/
def containsCommaSpace : Str → Bool
  | [] => false
  | c :: rest => (c == ',' && rest.head? == some ' ') || containsCommaSpace rest

/-- The decimal digit character for `n < 10`. -/
def digitChar (n : Nat) : Char := Char.ofNat (48 + n)

/-- Fuel-driven helper for `natDigits`; any fuel above the argument yields
the decimal digits (structural recursion keeps the function reducible). -/
def natDigitsGo : Nat → Nat → Str
  | 0, _ => []
  | fuel + 1, n =>
    if n < 10 then [digitChar n]
    else natDigitsGo fuel (n / 10) ++ [digitChar (n % 10)]

/-- The decimal digits of `n`, most significant first (Rust's `Display` for
integers, as produced by `format!` with a numeric index). -/
def natDigits (n : Nat) : Str := natDigitsGo (n + 1) n

/-- `indexmap::IndexMap::insert`: if the key is present, replace its value in
place (keeping its position); otherwise append the pair at the end. -/
def insertIM (m : List (Str × Str)) (k v : Str) : List (Str × Str) :=
  match m with
  | [] => [(k, v)]
  | (k₀, v₀) :: rest => if k₀ = k then (k, v) :: rest else (k₀, v₀) :: insertIM rest k v

/-! ## The attribute store

An HDF5 attribute, as used by this codec, is either a variable-length-unicode
attribute holding a list of text entries, or an f32 attribute holding a list
of numeric entries (f32 values are opaque bit patterns, `Nat`).  HDF5 performs
no conversion between strings and numbers, so a typed read or write on an
attribute of the other type fails. -/

/-- The value of one attribute on a group. -/
inductive AttrVal where
  /-- A `VarLenUnicode` attribute with its stored entries. -/
  | text (entries : List Str)
  /-- An `f32` attribute with its stored entries (opaque bit patterns). -/
  | num (entries : List Nat)
deriving DecidableEq

/-- A group's attribute store: name/value pairs, most recent write first. -/
abbrev Attrs := List (Str × AttrVal)

/-- Look up an attribute by name (`Group::attr` succeeds iff this is `some`). -/
def getAttr : Attrs → Str → Option AttrVal
  | [], _ => none
  | (m, v) :: rest, n => if m = n then some v else getAttr rest n

/-- Record a write of attribute `n` with value `v` (shadowing any old value). -/
def setAttr (a : Attrs) (n : Str) (v : AttrVal) : Attrs := (n, v) :: a

/-- `attr(n).read_raw::<VarLenUnicode>()`: succeeds iff the attribute exists
and is a text attribute, yielding all entries. -/
def readRawText (a : Attrs) (n : Str) : Option (List Str) :=
  match getAttr a n with
  | some (.text es) => some es
  | _ => none

/-- `attr(n).read_raw::<f32>()`: succeeds iff the attribute exists and is a
numeric attribute, yielding all entries. -/
def readRawNum (a : Attrs) (n : Str) : Option (List Nat) :=
  match getAttr a n with
  | some (.num es) => some es
  | _ => none

/-! ## The metadata record -/

/-- `DotthzMetaData` (src/dotthz.rs lines 16-52): metadata for one group.
`md` models the `IndexMap<String, String>` as an ordered list of key/value
pairs with unique keys kept in insertion order. -/
structure DotthzMetaData where
  /-- The user responsible for the measurement. -/
  user : Str
  /-- The email of the user. -/
  email : Str
  /-- The ORCID identifier for the user. -/
  orcid : Str
  /-- The institution of the user. -/
  institution : Str
  /-- The description of the measurement. -/
  description : Str
  /-- Additional metadata stored as key-value pairs (`IndexMap`). -/
  md : List (Str × Str)
  /-- dsDescription entries. -/
  ds_description : List Str
  /-- dotThz version. -/
  version : Str
  /-- The mode of measurement. -/
  mode : Str
  /-- The instrument used for measurement. -/
  instrument : Str
  /-- The time of measurement. -/
  time : Str
  /-- The date of measurement. -/
  date : Str
deriving DecidableEq

/-- `DotthzMetaData::default()`: every field empty. -/
def defaultMeta : DotthzMetaData :=
  ⟨[], [], [], [], [], [], [], [], [], [], [], []⟩

/-- The composite identity value written to the `user` attribute:
`format!` joining orcid, user, email, institution with `/` in that order. -/
def userComposite (m : DotthzMetaData) : Str :=
  m.orcid ++ '/' :: (m.user ++ '/' :: (m.email ++ '/' :: m.institution))

/-- The attribute name `format!` of `md` followed by the decimal rendering of
`i + 1` (the loop in `set_meta_data` and `get_meta_data` is 0-indexed but the
attribute family is 1-indexed). -/
def mdName (i : Nat) : Str := 'm' :: 'd' :: natDigits (i + 1)

/-- The attribute name `description`. -/
def nDescription : Str := "description".toList

/-- The attribute name `date`. -/
def nDate : Str := "date".toList

/-- The attribute name `instrument`. -/
def nInstrument : Str := "instrument".toList

/-- The attribute name `mode`. -/
def nMode : Str := "mode".toList

/-- The attribute name `thzVer` (carrying the `version` field). -/
def nThzVer : Str := "thzVer".toList

/-- The attribute name `time`. -/
def nTime : Str := "time".toList

/-- The attribute name `user` (carrying the identity composite). -/
def nUser : Str := "user".toList

/-- The attribute name `mdDescription` (the annotations descriptor). -/
def nMdDescription : Str := "mdDescription".toList

/-- The attribute name `dsDescription` (the dataset-descriptions descriptor). -/
def nDsDescription : Str := "dsDescription".toList

/-! ## Encode: `set_meta_data`

Each block of `set_meta_data` follows the same pattern: if the attribute
already exists, `write_scalar` (or `write_raw`) the new value into it,
otherwise create a new `VarLenUnicode` attribute and write into that.
`write_scalar`/`write_raw` of a text value into an existing attribute
succeeds only when the attribute is itself a text attribute whose stored
size is one element (HDF5 has no number/string conversion and an attribute
cannot change size); failures abort the whole call (the `?` operator).
The model returns `none` on failure and does not track the attributes
already written before the failing step, since no claim observes the
store after a failed call. -/

/-- One scalar-text block of `set_meta_data` (used for `description`, `date`,
`instrument`, `mode`, `thzVer`, `time` and `user`). -/
def putTextAttr (a : Attrs) (n : Str) (value : Str) : Option Attrs :=
  match vluFromStr value with
  | none => none
  | some s =>
    match getAttr a n with
    | some (.text es) => if es.length = 1 then some (setAttr a n (.text [s])) else none
    | some (.num _) => none
    | none => some (setAttr a n (.text [s]))

/-- One descriptor block of `set_meta_data` (used for `mdDescription` and
`dsDescription`): `write_raw` of the one-element slice holding the joined
string.  The success conditions coincide with `putTextAttr` in this model. -/
def putDescriptorAttr (a : Attrs) (n : Str) (value : Str) : Option Attrs :=
  match vluFromStr value with
  | none => none
  | some s =>
    match getAttr a n with
    | some (.text es) => if es.length = 1 then some (setAttr a n (.text [s])) else none
    | some (.num _) => none
    | none => some (setAttr a n (.text [s]))

/-- The body of the `md` write loop in `set_meta_data` for index `i` (writing
attribute `mdName i`): if the attribute already exists, try
`value.parse::<f32>()` first and `write_scalar` the parsed number on success
(which fails on a text-typed attribute), falling back to writing the text;
if the attribute does not exist, create a `VarLenUnicode` attribute and write
the text value without attempting the parse. -/
def putMdAttr (p : Str → Option Nat) (a : Attrs) (i : Nat) (value : Str) : Option Attrs :=
  match getAttr a (mdName i) with
  | some existing =>
    match p value with
    | some x =>
      match existing with
      | .num es => if es.length = 1 then some (setAttr a (mdName i) (.num [x])) else none
      | .text _ => none
    | none =>
      match vluFromStr value with
      | none => none
      | some s =>
        match existing with
        | .text es => if es.length = 1 then some (setAttr a (mdName i) (.text [s])) else none
        | .num _ => none
  | none =>
    match vluFromStr value with
    | none => none
    | some s => some (setAttr a (mdName i) (.text [s]))

/-- The `md` write loop of `set_meta_data`, over the remaining entries of the
`IndexMap` starting at index `i`. -/
def mdFold (p : Str → Option Nat) : List (Str × Str) → Nat → Attrs → Option Attrs
  | [], _, a => some a
  | (_, v) :: rest, i, a =>
    match putMdAttr p a i v with
    | none => none
    | some a₁ => mdFold p rest (i + 1) a₁

/-- `DotthzFile::set_meta_data` (src/dotthz.rs lines 190-310), as a function
of the group's attribute store.  `p` models `str::parse::<f32>` (success and
the parsed value, as an opaque bit pattern).  The blocks run in source order;
the first failing block aborts the call. -/
def setMetaData (p : Str → Option Nat) (a : Attrs) (m : DotthzMetaData) : Option Attrs := do
  let a ← putTextAttr a nDescription m.description
  let a ← putTextAttr a nDate m.date
  let a ← putTextAttr a nInstrument m.instrument
  let a ← putTextAttr a nMode m.mode
  let a ← putTextAttr a nThzVer m.version
  let a ← putTextAttr a nTime m.time
  -- the composite entry is built with `.unwrap()`: a nul character panics;
  -- the panic is modelled as failure of the call
  let _ ← vluFromStr (userComposite m)
  let a ← putTextAttr a nUser (userComposite m)
  let a ← putDescriptorAttr a nMdDescription (joinCommaSpace (m.md.map Prod.fst))
  let a ← mdFold p m.md 0 a
  let a ← putDescriptorAttr a nDsDescription (joinCommaSpace m.ds_description)
  some a

/-! ## Decode: `get_meta_data`

`get_meta_data` starts from `DotthzMetaData::default()` and runs a sequence
of `if let Ok(..)` blocks, one per attribute; a block that fails to read its
attribute leaves the corresponding field at its default.  In the source the
only fallible step outside those blocks is looking up the group itself
(`self.file.group(group_name)?`); given the group's attribute store the
function is total, so the model returns the record directly. -/

/-- The decode rule for the `mdDescription` attribute (src lines 348-357): a
single stored entry is split on the separator, more than one entry is taken
as already split. -/
def unpackDescriptor (stored : List Str) : List Str :=
  match stored with
  | [s] => splitCommaSpace s
  | _ => stored

/-- The decode rule for the `dsDescription` attribute (src lines 334-337):
every stored entry is split on the separator and the results concatenated
(`flat_map`). -/
def dsDescriptions (stored : List Str) : List Str :=
  stored.flatMap splitCommaSpace

/-- One iteration of the `md` read loop of `get_meta_data` (src lines
359-385), at index `i` with recovered key `key`: read attribute `mdName i`
as f32 and, if that read yields a first element, insert its `format!`
rendering; then read the same attribute as text and, if that read yields a
first element, insert it.  (At most one of the two typed reads can succeed.)
`f` models `format!` on an f32 value. -/
def mdReadStep (f : Nat → Str) (a : Attrs) (i : Nat) (key : Str)
    (acc : List (Str × Str)) : List (Str × Str) :=
  let acc₁ :=
    match readRawNum a (mdName i) with
    | some es =>
      match es.head? with
      | some v => insertIM acc key (f v)
      | none => acc
    | none => acc
  match readRawText a (mdName i) with
  | some es =>
    match es.head? with
    | some s => insertIM acc₁ key s
    | none => acc₁
  | none => acc₁

/-- The `md` read loop of `get_meta_data` over the recovered keys, starting
at index `i`. -/
def mdReadLoop (f : Nat → Str) (a : Attrs) : List Str → Nat → List (Str × Str) → List (Str × Str)
  | [], _, acc => acc
  | key :: rest, i, acc => mdReadLoop f a rest (i + 1) (mdReadStep f a i key acc)

/-- The `instrument` block of `get_meta_data`. -/
def decodeInstrument (a : Attrs) (m : DotthzMetaData) : DotthzMetaData :=
  match (readRawText a nInstrument).bind List.head? with
  | some d => { m with instrument := d }
  | none => m

/-- The `dsDescription` block of `get_meta_data`. -/
def decodeDs (a : Attrs) (m : DotthzMetaData) : DotthzMetaData :=
  match readRawText a nDsDescription with
  | some stored => { m with ds_description := dsDescriptions stored }
  | none => m

/-- The `mdDescription` block of `get_meta_data`: recover the key list and
run the `md` read loop over it. -/
def decodeMd (f : Nat → Str) (a : Attrs) (m : DotthzMetaData) : DotthzMetaData :=
  match readRawText a nMdDescription with
  | some stored => { m with md := mdReadLoop f a (unpackDescriptor stored) 0 m.md }
  | none => m

/-- The `mode` block of `get_meta_data`. -/
def decodeMode (a : Attrs) (m : DotthzMetaData) : DotthzMetaData :=
  match (readRawText a nMode).bind List.head? with
  | some d => { m with mode := d }
  | none => m

/-- The `thzVer` block of `get_meta_data`. -/
def decodeVersion (a : Attrs) (m : DotthzMetaData) : DotthzMetaData :=
  match (readRawText a nThzVer).bind List.head? with
  | some d => { m with version := d }
  | none => m

/-- The `description` block of `get_meta_data`. -/
def decodeDescription (a : Attrs) (m : DotthzMetaData) : DotthzMetaData :=
  match (readRawText a nDescription).bind List.head? with
  | some d => { m with description := d }
  | none => m

/-- The `time` block of `get_meta_data`. -/
def decodeTime (a : Attrs) (m : DotthzMetaData) : DotthzMetaData :=
  match (readRawText a nTime).bind List.head? with
  | some d => { m with time := d }
  | none => m

/-- The `date` block of `get_meta_data`. -/
def decodeDate (a : Attrs) (m : DotthzMetaData) : DotthzMetaData :=
  match (readRawText a nDate).bind List.head? with
  | some d => { m with date := d }
  | none => m

/-- The `user` block of `get_meta_data` (src lines 443-467): split the first
stored entry on `/` and populate orcid, user, email, institution from the
parts that exist, trimming each. -/
def decodeUser (a : Attrs) (m : DotthzMetaData) : DotthzMetaData :=
  match (readRawText a nUser).bind List.head? with
  | some d =>
    let parts := splitChar '/' d
    let m := match parts.head? with
      | some part => { m with orcid := rustTrim part }
      | none => m
    let m := match parts.get? 1 with
      | some part => { m with user := rustTrim part }
      | none => m
    let m := match parts.get? 2 with
      | some part => { m with email := rustTrim part }
      | none => m
    match parts.get? 3 with
    | some part => { m with institution := rustTrim part }
    | none => m
  | none => m

/-- `DotthzFile::get_meta_data` (src/dotthz.rs lines 313-469) as a function
of the group's attribute store, with the blocks in source order.  `f` models
`format!` on an f32 value. -/
def getMetaData (f : Nat → Str) (a : Attrs) : DotthzMetaData :=
  decodeUser a (decodeDate a (decodeTime a (decodeDescription a (decodeVersion a
    (decodeMode a (decodeMd f a (decodeDs a (decodeInstrument a defaultMeta))))))))

/-! ## Datasets: `add_dataset` -/

/-- An in-memory `ndarray` view passed to `add_dataset`: its shape and its
elements in row-major order (element values are opaque; for the canonical
f32 form they stand for IEEE 754 bit patterns). -/
structure ArrayView (α : Type) where
  /-- `dataset.shape()`. -/
  shape : List Nat
  /-- The elements, row-major. -/
  data : List α
deriving DecidableEq

/-- A stored HDF5 dataset: the shape declared at creation and the raw
elements written into it. -/
structure DatasetVal (α : Type) where
  /-- The shape given to `new_dataset::<T>().shape(..)`. -/
  shape : List Nat
  /-- The raw contents written by `Dataset::write`. -/
  data : List α
deriving DecidableEq

/-- A group's datasets, by name. -/
abbrev Datasets (α : Type) := List (Str × DatasetVal α)

/-- Look up a dataset by name (`Group::dataset`). -/
def getDataset : Datasets α → Str → Option (DatasetVal α)
  | [], _ => none
  | (m, v) :: rest, n => if m = n then some v else getDataset rest n

/-- `DotthzFile::add_dataset` (src/dotthz.rs lines 493-515) on a group's
dataset map: create a dataset whose shape is taken directly from the
in-memory array (`.shape(dataset.shape())`) and write the array's contents
into it.  `create` fails if a dataset of that name already exists. -/
def addDataset (g : Datasets α) (n : Str) (arr : ArrayView α) : Option (Datasets α) :=
  match getDataset g n with
  | some _ => none
  | none => some ((n, ⟨arr.shape, arr.data⟩) :: g)

/-! ## Basic lemmas about the attribute store -/

theorem getAttr_setAttr_same (a : Attrs) (n : Str) (v : AttrVal) :
    getAttr (setAttr a n v) n = some v := by
  simp [getAttr, setAttr]

theorem getAttr_setAttr_ne (a : Attrs) (n m : Str) (v : AttrVal) (h : n ≠ m) :
    getAttr (setAttr a n v) m = getAttr a m := by
  simp [getAttr, setAttr, h]

theorem vluFromStr_some {v s : Str} (h : vluFromStr v = some s) : s = v := by
  unfold vluFromStr at h
  split at h
  · cases h
  · exact (Option.some.injEq _ _ ▸ h).symm

/-! ## Decimal rendering: `natDigits` is injective and consists of digits -/

theorem digitChar_toNat {n : Nat} (h : n < 10) : (digitChar n).toNat = 48 + n := by
  interval_cases n <;> decide

theorem natDigitsGo_fuel :
    ∀ n f₁ f₂, n < f₁ → n < f₂ → natDigitsGo f₁ n = natDigitsGo f₂ n := by
  intro n
  induction n using Nat.strong_induction_on with
  | _ n ih =>
    intro f₁ f₂ h₁ h₂
    match f₁, f₂ with
    | g₁ + 1, g₂ + 1 =>
      by_cases h : n < 10
      · simp [natDigitsGo, h]
      · have hn : 10 ≤ n := Nat.le_of_not_lt h
        have hd : n / 10 < n := Nat.div_lt_self (by omega) (by omega)
        simp only [natDigitsGo, if_neg h]
        rw [ih (n / 10) hd (g₁) (g₂) (by omega) (by omega)]

theorem natDigits_lt {n : Nat} (h : n < 10) : natDigits n = [digitChar n] := by
  unfold natDigits natDigitsGo
  simp [h]

theorem natDigits_ge {n : Nat} (h : 10 ≤ n) :
    natDigits n = natDigits (n / 10) ++ [digitChar (n % 10)] := by
  unfold natDigits
  have hd : n / 10 < n := Nat.div_lt_self (by omega) (by omega)
  conv =>
    lhs
    rw [natDigitsGo]
  rw [if_neg (Nat.not_lt_of_le h), natDigitsGo_fuel (n / 10) n (n / 10 + 1) hd (by omega)]

/-- Decimal value of a digit string; a left inverse of `natDigits`. -/
def digitsVal (l : Str) : Nat := l.foldl (fun acc c => 10 * acc + (c.toNat - 48)) 0

theorem digitsVal_append_single (l : Str) (c : Char) :
    digitsVal (l ++ [c]) = 10 * digitsVal l + (c.toNat - 48) := by
  simp [digitsVal]

theorem digitsVal_natDigits : ∀ n, digitsVal (natDigits n) = n := by
  intro n
  induction n using Nat.strong_induction_on with
  | _ n ih =>
    by_cases h : n < 10
    · rw [natDigits_lt h]
      simp [digitsVal, digitChar_toNat h]
    · have h10 : 10 ≤ n := Nat.le_of_not_lt h
      rw [natDigits_ge h10, digitsVal_append_single,
        ih (n / 10) (Nat.div_lt_self (by omega) (by omega)),
        digitChar_toNat (Nat.mod_lt n (by omega))]
      omega

theorem natDigits_inj {a b : Nat} (h : natDigits a = natDigits b) : a = b := by
  rw [← digitsVal_natDigits a, h, digitsVal_natDigits]

theorem natDigits_head_digit :
    ∀ n, ∃ c l, natDigits n = c :: l ∧ 48 ≤ c.toNat ∧ c.toNat ≤ 57 := by
  intro n
  induction n using Nat.strong_induction_on with
  | _ n ih =>
    by_cases h : n < 10
    · refine ⟨digitChar n, [], natDigits_lt h, ?_, ?_⟩ <;> rw [digitChar_toNat h] <;> omega
    · have h10 : 10 ≤ n := Nat.le_of_not_lt h
      obtain ⟨c, l, hcl, h48, h57⟩ := ih (n / 10) (Nat.div_lt_self (by omega) (by omega))
      exact ⟨c, l ++ [digitChar (n % 10)], by rw [natDigits_ge h10, hcl]; rfl, h48, h57⟩

/-! ## The `mdN` attribute-name family -/

theorem mdName_inj {i j : Nat} (h : mdName i = mdName j) : i = j := by
  unfold mdName at h
  have := natDigits_inj (by injection h with _ h; injection h)
  omega

theorem mdName_ne_nDescription (i : Nat) : mdName i ≠ nDescription := by
  intro h
  have h0 := congrArg List.head? h
  rw [show (mdName i).head? = some 'm' from rfl,
    show nDescription.head? = some 'd' from rfl] at h0
  exact absurd h0 (by decide)

theorem mdName_ne_nDate (i : Nat) : mdName i ≠ nDate := by
  intro h
  have h0 := congrArg List.head? h
  rw [show (mdName i).head? = some 'm' from rfl, show nDate.head? = some 'd' from rfl] at h0
  exact absurd h0 (by decide)

theorem mdName_ne_nInstrument (i : Nat) : mdName i ≠ nInstrument := by
  intro h
  have h0 := congrArg List.head? h
  rw [show (mdName i).head? = some 'm' from rfl,
    show nInstrument.head? = some 'i' from rfl] at h0
  exact absurd h0 (by decide)

theorem mdName_ne_nMode (i : Nat) : mdName i ≠ nMode := by
  intro h
  have h0 := congrArg (fun l => List.get? l 1) h
  simp only at h0
  rw [show List.get? (mdName i) 1 = some 'd' from rfl,
    show List.get? nMode 1 = some 'o' from rfl] at h0
  exact absurd h0 (by decide)

theorem mdName_ne_nThzVer (i : Nat) : mdName i ≠ nThzVer := by
  intro h
  have h0 := congrArg List.head? h
  rw [show (mdName i).head? = some 'm' from rfl, show nThzVer.head? = some 't' from rfl] at h0
  exact absurd h0 (by decide)

theorem mdName_ne_nTime (i : Nat) : mdName i ≠ nTime := by
  intro h
  have h0 := congrArg List.head? h
  rw [show (mdName i).head? = some 'm' from rfl, show nTime.head? = some 't' from rfl] at h0
  exact absurd h0 (by decide)

theorem mdName_ne_nUser (i : Nat) : mdName i ≠ nUser := by
  intro h
  have h0 := congrArg List.head? h
  rw [show (mdName i).head? = some 'm' from rfl, show nUser.head? = some 'u' from rfl] at h0
  exact absurd h0 (by decide)

theorem mdName_ne_nDsDescription (i : Nat) : mdName i ≠ nDsDescription := by
  intro h
  have h0 := congrArg List.head? h
  rw [show (mdName i).head? = some 'm' from rfl,
    show nDsDescription.head? = some 'd' from rfl] at h0
  exact absurd h0 (by decide)

theorem mdName_ne_nMdDescription (i : Nat) : mdName i ≠ nMdDescription := by
  intro h
  obtain ⟨c, l, hcl, _h48, h57⟩ := natDigits_head_digit (i + 1)
  have h2 : List.get? (mdName i) 2 = some c := by simp [mdName, hcl]
  rw [h, show List.get? nMdDescription 2 = some 'D' from rfl] at h2
  injection h2 with h2
  rw [← h2] at h57
  exact absurd h57 (by decide)

/-! ## Characterization of the encode steps -/

/-- Every attribute of the store is a text attribute.  Stores produced by
`set_meta_data` on an empty group satisfy this, because every branch of the
encoder that succeeds on such a store writes a text value. -/
def allText (a : Attrs) : Prop :=
  ∀ n v, getAttr a n = some v → ∃ es, v = AttrVal.text es

theorem allText_nil : allText [] := by
  intro n v h
  cases h

theorem allText_setAttr_text {a : Attrs} (h : allText a) (n : Str) (es : List Str) :
    allText (setAttr a n (.text es)) := by
  intro m v hm
  by_cases hnm : n = m
  · subst hnm
    rw [getAttr_setAttr_same] at hm
    exact ⟨es, (Option.some.injEq _ _ ▸ hm).symm⟩
  · rw [getAttr_setAttr_ne _ _ _ _ hnm] at hm
    exact h m v hm

theorem putTextAttr_some {a a' : Attrs} {n v : Str} (h : putTextAttr a n v = some a') :
    a' = setAttr a n (.text [v]) := by
  unfold putTextAttr at h
  cases hv : vluFromStr v with
  | none => rw [hv] at h; cases h
  | some s =>
    rw [hv] at h
    have hs := vluFromStr_some hv
    subst hs
    cases hg : getAttr a n with
    | none => rw [hg] at h; exact (Option.some.injEq _ _ ▸ h).symm
    | some val =>
      rw [hg] at h
      cases val with
      | text es =>
        by_cases hl : es.length = 1
        · simp [hl] at h
          exact h.symm
        · simp [hl] at h
      | num es => cases h

theorem putDescriptorAttr_some {a a' : Attrs} {n v : Str}
    (h : putDescriptorAttr a n v = some a') : a' = setAttr a n (.text [v]) := by
  unfold putDescriptorAttr at h
  cases hv : vluFromStr v with
  | none => rw [hv] at h; cases h
  | some s =>
    rw [hv] at h
    have hs := vluFromStr_some hv
    subst hs
    cases hg : getAttr a n with
    | none => rw [hg] at h; exact (Option.some.injEq _ _ ▸ h).symm
    | some val =>
      rw [hg] at h
      cases val with
      | text es =>
        by_cases hl : es.length = 1
        · simp [hl] at h
          exact h.symm
        · simp [hl] at h
      | num es => cases h

/-- On an all-text store, a successful `md` write always stores the raw value
as a text scalar: the attribute either does not exist (the creating branch
never parses) or exists as text (and then a successful float parse would have
made the numeric `write_scalar` fail, so success implies the parse failed). -/
theorem putMdAttr_some_text {p : Str → Option Nat} {a a' : Attrs} {i : Nat} {v : Str}
    (hT : allText a) (h : putMdAttr p a i v = some a') :
    a' = setAttr a (mdName i) (.text [v]) := by
  unfold putMdAttr at h
  cases hg : getAttr a (mdName i) with
  | none =>
    rw [hg] at h
    cases hv : vluFromStr v with
    | none => rw [hv] at h; cases h
    | some s =>
      rw [hv] at h
      have hs := vluFromStr_some hv
      subst hs
      exact (Option.some.injEq _ _ ▸ h).symm
  | some val =>
    rw [hg] at h
    obtain ⟨es, hval⟩ := hT _ _ hg
    subst hval
    cases hp : p v with
    | some x => rw [hp] at h; cases h
    | none =>
      rw [hp] at h
      cases hv : vluFromStr v with
      | none => rw [hv] at h; cases h
      | some s =>
        rw [hv] at h
        have hs := vluFromStr_some hv
        subst hs
        by_cases hl : es.length = 1
        · simp [hl] at h
          exact h.symm
        · simp [hl] at h

/-- Success characterization of the `md` write loop on an all-text store:
the final store looks up `mdName (i + j)` to the text value of the `j`-th
entry, and the loop preserves every attribute whose name is outside the
`mdName` family. -/
theorem mdFold_some {p : Str → Option Nat} :
    ∀ {l : List (Str × Str)} {i : Nat} {a a' : Attrs},
      allText a → mdFold p l i a = some a' →
      (allText a' ∧
       (∀ n, (∀ j, i ≤ j → n ≠ mdName j) → getAttr a' n = getAttr a n) ∧
       (∀ j kv, l.get? j = some kv → getAttr a' (mdName (i + j)) = some (.text [kv.2]))) := by
  intro l
  induction l with
  | nil =>
    intro i a a' hT h
    cases h
    exact ⟨hT, fun n _ => rfl, fun j kv hj => by cases hj⟩
  | cons hd tl ih =>
    intro i a a' hT h
    unfold mdFold at h
    cases hstep : putMdAttr p a i hd.2 with
    | none =>
      obtain ⟨k₀, v₀⟩ := hd
      rw [hstep] at h
      cases h
    | some a₁ =>
      obtain ⟨k₀, v₀⟩ := hd
      rw [hstep] at h
      have ha₁ : a₁ = setAttr a (mdName i) (.text [v₀]) := putMdAttr_some_text hT hstep
      subst ha₁
      have hT₁ : allText (setAttr a (mdName i) (.text [v₀])) := allText_setAttr_text hT _ _
      obtain ⟨hT', hframe, hlook⟩ := ih hT₁ h
      refine ⟨hT', ?_, ?_⟩
      · intro n hn
        rw [hframe n (fun j hj => hn j (by omega)),
          getAttr_setAttr_ne _ _ _ _ (fun he => hn i (by omega) he.symm)]
      · intro j kv hj
        cases j with
        | zero =>
          cases hj
          rw [show i + 0 = i by omega, hframe (mdName i) (fun j' hj' he => by
            have := mdName_inj he
            omega), getAttr_setAttr_same]
        | succ j' =>
          have := hlook j' kv hj
          rw [show i + (j' + 1) = i + 1 + j' by omega]
          exact this

/-- Success characterization of `set_meta_data` on an all-text store (in
particular on a fresh group, or on a group previously written by
`set_meta_data` itself): every attribute slot the codec owns ends up holding
the text value derived from the record, independently of the store the
encoder started from. -/
theorem setMetaData_lookup {p : Str → Option Nat} {a a' : Attrs} {m : DotthzMetaData}
    (hT : allText a) (h : setMetaData p a m = some a') :
    getAttr a' nDescription = some (.text [m.description]) ∧
    getAttr a' nDate = some (.text [m.date]) ∧
    getAttr a' nInstrument = some (.text [m.instrument]) ∧
    getAttr a' nMode = some (.text [m.mode]) ∧
    getAttr a' nThzVer = some (.text [m.version]) ∧
    getAttr a' nTime = some (.text [m.time]) ∧
    getAttr a' nUser = some (.text [userComposite m]) ∧
    getAttr a' nMdDescription = some (.text [joinCommaSpace (m.md.map Prod.fst)]) ∧
    getAttr a' nDsDescription = some (.text [joinCommaSpace m.ds_description]) ∧
    (∀ j kv, m.md.get? j = some kv → getAttr a' (mdName j) = some (.text [kv.2])) ∧
    allText a' := by
  unfold setMetaData at h
  simp only [Option.bind_eq_bind, Option.bind_eq_some, Option.some.injEq] at h
  obtain ⟨a₁, h₁, a₂, h₂, a₃, h₃, a₄, h₄, a₅, h₅, a₆, h₆, s, hs, a₇, h₇, a₈, h₈, a₉, h₉,
    a₁₀, h₁₀, ha'⟩ := h
  subst ha'
  rw [putTextAttr_some h₁] at h₂
  rw [putTextAttr_some h₂] at h₃
  rw [putTextAttr_some h₃] at h₄
  rw [putTextAttr_some h₄] at h₅
  rw [putTextAttr_some h₅] at h₆
  rw [putTextAttr_some h₆] at h₇
  rw [putTextAttr_some h₇] at h₈
  rw [putDescriptorAttr_some h₈] at h₉
  have hT₈ : allText (setAttr (setAttr (setAttr (setAttr (setAttr (setAttr (setAttr
      (setAttr a nDescription (.text [m.description])) nDate (.text [m.date]))
      nInstrument (.text [m.instrument])) nMode (.text [m.mode]))
      nThzVer (.text [m.version])) nTime (.text [m.time]))
      nUser (.text [userComposite m]))
      nMdDescription (.text [joinCommaSpace (m.md.map Prod.fst)])) := by
    refine allText_setAttr_text (allText_setAttr_text (allText_setAttr_text
      (allText_setAttr_text (allText_setAttr_text (allText_setAttr_text
      (allText_setAttr_text (allText_setAttr_text hT _ _) _ _) _ _) _ _) _ _) _ _) _ _) _ _
  obtain ⟨hT₉, hframe, hlook⟩ := mdFold_some hT₈ h₉
  rw [putDescriptorAttr_some h₁₀]
  refine ⟨?_, ?_, ?_, ?_, ?_, ?_, ?_, ?_, ?_, ?_, ?_⟩
  · rw [getAttr_setAttr_ne _ _ _ _ (by decide),
      hframe nDescription (fun j _ he => (mdName_ne_nDescription j) he.symm)]
    simp +decide [getAttr_setAttr_same, getAttr_setAttr_ne]
  · rw [getAttr_setAttr_ne _ _ _ _ (by decide),
      hframe nDate (fun j _ he => (mdName_ne_nDate j) he.symm)]
    simp +decide [getAttr_setAttr_same, getAttr_setAttr_ne]
  · rw [getAttr_setAttr_ne _ _ _ _ (by decide),
      hframe nInstrument (fun j _ he => (mdName_ne_nInstrument j) he.symm)]
    simp +decide [getAttr_setAttr_same, getAttr_setAttr_ne]
  · rw [getAttr_setAttr_ne _ _ _ _ (by decide),
      hframe nMode (fun j _ he => (mdName_ne_nMode j) he.symm)]
    simp +decide [getAttr_setAttr_same, getAttr_setAttr_ne]
  · rw [getAttr_setAttr_ne _ _ _ _ (by decide),
      hframe nThzVer (fun j _ he => (mdName_ne_nThzVer j) he.symm)]
    simp +decide [getAttr_setAttr_same, getAttr_setAttr_ne]
  · rw [getAttr_setAttr_ne _ _ _ _ (by decide),
      hframe nTime (fun j _ he => (mdName_ne_nTime j) he.symm)]
    simp +decide [getAttr_setAttr_same, getAttr_setAttr_ne]
  · rw [getAttr_setAttr_ne _ _ _ _ (by decide),
      hframe nUser (fun j _ he => (mdName_ne_nUser j) he.symm)]
    simp +decide [getAttr_setAttr_same, getAttr_setAttr_ne]
  · rw [getAttr_setAttr_ne _ _ _ _ (by decide),
      hframe nMdDescription (fun j _ he => (mdName_ne_nMdDescription j) he.symm)]
    rw [getAttr_setAttr_same]
  · rw [getAttr_setAttr_same]
  · intro j kv hj
    rw [getAttr_setAttr_ne _ _ _ _ (fun he => (mdName_ne_nDsDescription j) he.symm)]
    have := hlook j kv hj
    rw [show (0 : Nat) + j = j by omega] at this
    exact this
  · exact allText_setAttr_text hT₉ _ _

/-! ## Characterization of the decode blocks -/

/-- The value a scalar-text block of `get_meta_data` leaves in its field when
the attribute named `n` is readable with a first entry, and the default
otherwise. -/
def scalarField (a : Attrs) (n : Str) : Str :=
  ((readRawText a n).bind List.head?).getD []

/-- The value the `user` block of `get_meta_data` leaves in the `k`-th
subfield of position order orcid, user, email, institution. -/
def userField (a : Attrs) (k : Nat) : Str :=
  ((readRawText a nUser).bind List.head?).elim []
    (fun d => (List.get? (splitChar '/' d) k).elim [] rustTrim)

theorem userField_zero (a : Attrs) :
    userField a 0 = ((readRawText a nUser).bind List.head?).elim []
      (fun d => ((splitChar '/' d).head?).elim [] rustTrim) := by
  unfold userField
  cases (readRawText a nUser).bind List.head? with
  | none => rfl
  | some d => simp [List.get?_eq_getElem?, List.head?_eq_getElem?]

theorem decodeInstrument_eq (a : Attrs) (m : DotthzMetaData) :
    decodeInstrument a m = { m with instrument := ((readRawText a nInstrument).bind List.head?).getD m.instrument } := by
  unfold decodeInstrument
  cases h : (readRawText a nInstrument).bind List.head? <;> simp [h]

theorem decodeDs_eq (a : Attrs) (m : DotthzMetaData) :
    decodeDs a m = { m with ds_description := ((readRawText a nDsDescription).map dsDescriptions).getD m.ds_description } := by
  unfold decodeDs
  cases h : readRawText a nDsDescription <;> simp [h]

theorem decodeMd_eq (f : Nat → Str) (a : Attrs) (m : DotthzMetaData) :
    decodeMd f a m = { m with md := ((readRawText a nMdDescription).map
      (fun stored => mdReadLoop f a (unpackDescriptor stored) 0 m.md)).getD m.md } := by
  unfold decodeMd
  cases h : readRawText a nMdDescription <;> simp [h]

theorem decodeMode_eq (a : Attrs) (m : DotthzMetaData) :
    decodeMode a m = { m with mode := ((readRawText a nMode).bind List.head?).getD m.mode } := by
  unfold decodeMode
  cases h : (readRawText a nMode).bind List.head? <;> simp [h]

theorem decodeVersion_eq (a : Attrs) (m : DotthzMetaData) :
    decodeVersion a m = { m with version := ((readRawText a nThzVer).bind List.head?).getD m.version } := by
  unfold decodeVersion
  cases h : (readRawText a nThzVer).bind List.head? <;> simp [h]

theorem decodeDescription_eq (a : Attrs) (m : DotthzMetaData) :
    decodeDescription a m = { m with description := ((readRawText a nDescription).bind List.head?).getD m.description } := by
  unfold decodeDescription
  cases h : (readRawText a nDescription).bind List.head? <;> simp [h]

theorem decodeTime_eq (a : Attrs) (m : DotthzMetaData) :
    decodeTime a m = { m with time := ((readRawText a nTime).bind List.head?).getD m.time } := by
  unfold decodeTime
  cases h : (readRawText a nTime).bind List.head? <;> simp [h]

theorem decodeDate_eq (a : Attrs) (m : DotthzMetaData) :
    decodeDate a m = { m with date := ((readRawText a nDate).bind List.head?).getD m.date } := by
  unfold decodeDate
  cases h : (readRawText a nDate).bind List.head? <;> simp [h]

theorem decodeUser_eq (a : Attrs) (m : DotthzMetaData) :
    decodeUser a m =
      match (readRawText a nUser).bind List.head? with
      | some d =>
        { m with
          orcid := ((splitChar '/' d).head?).elim m.orcid rustTrim,
          user := (List.get? (splitChar '/' d) 1).elim m.user rustTrim,
          email := (List.get? (splitChar '/' d) 2).elim m.email rustTrim,
          institution := (List.get? (splitChar '/' d) 3).elim m.institution rustTrim }
      | none => m := by
  unfold decodeUser
  cases hd : (readRawText a nUser).bind List.head? with
  | none => rfl
  | some d =>
    simp only
    rcases h0 : (splitChar '/' d).head? with _ | p0 <;>
      rcases h1 : List.get? (splitChar '/' d) 1 with _ | p1 <;>
        rcases h2 : List.get? (splitChar '/' d) 2 with _ | p2 <;>
          rcases h3 : List.get? (splitChar '/' d) 3 with _ | p3 <;>
            simp only [h0, h1, h2, h3, Option.elim]

/-! ## Field projections of the decode blocks

For each block, its own field is characterized and every other field is
left unchanged; composing these gives the per-field characterization of
`get_meta_data`. -/

theorem decodeInstrument_keeps_user (a : Attrs) (m : DotthzMetaData) :
    (decodeInstrument a m).user = m.user := by
  rw [decodeInstrument_eq]

theorem decodeInstrument_keeps_email (a : Attrs) (m : DotthzMetaData) :
    (decodeInstrument a m).email = m.email := by
  rw [decodeInstrument_eq]

theorem decodeInstrument_keeps_orcid (a : Attrs) (m : DotthzMetaData) :
    (decodeInstrument a m).orcid = m.orcid := by
  rw [decodeInstrument_eq]

theorem decodeInstrument_keeps_institution (a : Attrs) (m : DotthzMetaData) :
    (decodeInstrument a m).institution = m.institution := by
  rw [decodeInstrument_eq]

theorem decodeInstrument_keeps_description (a : Attrs) (m : DotthzMetaData) :
    (decodeInstrument a m).description = m.description := by
  rw [decodeInstrument_eq]

theorem decodeInstrument_keeps_md (a : Attrs) (m : DotthzMetaData) :
    (decodeInstrument a m).md = m.md := by
  rw [decodeInstrument_eq]

theorem decodeInstrument_keeps_ds_description (a : Attrs) (m : DotthzMetaData) :
    (decodeInstrument a m).ds_description = m.ds_description := by
  rw [decodeInstrument_eq]

theorem decodeInstrument_keeps_version (a : Attrs) (m : DotthzMetaData) :
    (decodeInstrument a m).version = m.version := by
  rw [decodeInstrument_eq]

theorem decodeInstrument_keeps_mode (a : Attrs) (m : DotthzMetaData) :
    (decodeInstrument a m).mode = m.mode := by
  rw [decodeInstrument_eq]

theorem decodeInstrument_keeps_time (a : Attrs) (m : DotthzMetaData) :
    (decodeInstrument a m).time = m.time := by
  rw [decodeInstrument_eq]

theorem decodeInstrument_keeps_date (a : Attrs) (m : DotthzMetaData) :
    (decodeInstrument a m).date = m.date := by
  rw [decodeInstrument_eq]

theorem decodeDs_keeps_user (a : Attrs) (m : DotthzMetaData) :
    (decodeDs a m).user = m.user := by
  rw [decodeDs_eq]

theorem decodeDs_keeps_email (a : Attrs) (m : DotthzMetaData) :
    (decodeDs a m).email = m.email := by
  rw [decodeDs_eq]

theorem decodeDs_keeps_orcid (a : Attrs) (m : DotthzMetaData) :
    (decodeDs a m).orcid = m.orcid := by
  rw [decodeDs_eq]

theorem decodeDs_keeps_institution (a : Attrs) (m : DotthzMetaData) :
    (decodeDs a m).institution = m.institution := by
  rw [decodeDs_eq]

theorem decodeDs_keeps_description (a : Attrs) (m : DotthzMetaData) :
    (decodeDs a m).description = m.description := by
  rw [decodeDs_eq]

theorem decodeDs_keeps_md (a : Attrs) (m : DotthzMetaData) :
    (decodeDs a m).md = m.md := by
  rw [decodeDs_eq]

theorem decodeDs_keeps_version (a : Attrs) (m : DotthzMetaData) :
    (decodeDs a m).version = m.version := by
  rw [decodeDs_eq]

theorem decodeDs_keeps_mode (a : Attrs) (m : DotthzMetaData) :
    (decodeDs a m).mode = m.mode := by
  rw [decodeDs_eq]

theorem decodeDs_keeps_instrument (a : Attrs) (m : DotthzMetaData) :
    (decodeDs a m).instrument = m.instrument := by
  rw [decodeDs_eq]

theorem decodeDs_keeps_time (a : Attrs) (m : DotthzMetaData) :
    (decodeDs a m).time = m.time := by
  rw [decodeDs_eq]

theorem decodeDs_keeps_date (a : Attrs) (m : DotthzMetaData) :
    (decodeDs a m).date = m.date := by
  rw [decodeDs_eq]

theorem decodeMd_keeps_user (f : Nat → Str) (a : Attrs) (m : DotthzMetaData) :
    (decodeMd f a m).user = m.user := by
  rw [decodeMd_eq]

theorem decodeMd_keeps_email (f : Nat → Str) (a : Attrs) (m : DotthzMetaData) :
    (decodeMd f a m).email = m.email := by
  rw [decodeMd_eq]

theorem decodeMd_keeps_orcid (f : Nat → Str) (a : Attrs) (m : DotthzMetaData) :
    (decodeMd f a m).orcid = m.orcid := by
  rw [decodeMd_eq]

theorem decodeMd_keeps_institution (f : Nat → Str) (a : Attrs) (m : DotthzMetaData) :
    (decodeMd f a m).institution = m.institution := by
  rw [decodeMd_eq]

theorem decodeMd_keeps_description (f : Nat → Str) (a : Attrs) (m : DotthzMetaData) :
    (decodeMd f a m).description = m.description := by
  rw [decodeMd_eq]

theorem decodeMd_keeps_ds_description (f : Nat → Str) (a : Attrs) (m : DotthzMetaData) :
    (decodeMd f a m).ds_description = m.ds_description := by
  rw [decodeMd_eq]

theorem decodeMd_keeps_version (f : Nat → Str) (a : Attrs) (m : DotthzMetaData) :
    (decodeMd f a m).version = m.version := by
  rw [decodeMd_eq]

theorem decodeMd_keeps_mode (f : Nat → Str) (a : Attrs) (m : DotthzMetaData) :
    (decodeMd f a m).mode = m.mode := by
  rw [decodeMd_eq]

theorem decodeMd_keeps_instrument (f : Nat → Str) (a : Attrs) (m : DotthzMetaData) :
    (decodeMd f a m).instrument = m.instrument := by
  rw [decodeMd_eq]

theorem decodeMd_keeps_time (f : Nat → Str) (a : Attrs) (m : DotthzMetaData) :
    (decodeMd f a m).time = m.time := by
  rw [decodeMd_eq]

theorem decodeMd_keeps_date (f : Nat → Str) (a : Attrs) (m : DotthzMetaData) :
    (decodeMd f a m).date = m.date := by
  rw [decodeMd_eq]

theorem decodeMode_keeps_user (a : Attrs) (m : DotthzMetaData) :
    (decodeMode a m).user = m.user := by
  rw [decodeMode_eq]

theorem decodeMode_keeps_email (a : Attrs) (m : DotthzMetaData) :
    (decodeMode a m).email = m.email := by
  rw [decodeMode_eq]

theorem decodeMode_keeps_orcid (a : Attrs) (m : DotthzMetaData) :
    (decodeMode a m).orcid = m.orcid := by
  rw [decodeMode_eq]

theorem decodeMode_keeps_institution (a : Attrs) (m : DotthzMetaData) :
    (decodeMode a m).institution = m.institution := by
  rw [decodeMode_eq]

theorem decodeMode_keeps_description (a : Attrs) (m : DotthzMetaData) :
    (decodeMode a m).description = m.description := by
  rw [decodeMode_eq]

theorem decodeMode_keeps_md (a : Attrs) (m : DotthzMetaData) :
    (decodeMode a m).md = m.md := by
  rw [decodeMode_eq]

theorem decodeMode_keeps_ds_description (a : Attrs) (m : DotthzMetaData) :
    (decodeMode a m).ds_description = m.ds_description := by
  rw [decodeMode_eq]

theorem decodeMode_keeps_version (a : Attrs) (m : DotthzMetaData) :
    (decodeMode a m).version = m.version := by
  rw [decodeMode_eq]

theorem decodeMode_keeps_instrument (a : Attrs) (m : DotthzMetaData) :
    (decodeMode a m).instrument = m.instrument := by
  rw [decodeMode_eq]

theorem decodeMode_keeps_time (a : Attrs) (m : DotthzMetaData) :
    (decodeMode a m).time = m.time := by
  rw [decodeMode_eq]

theorem decodeMode_keeps_date (a : Attrs) (m : DotthzMetaData) :
    (decodeMode a m).date = m.date := by
  rw [decodeMode_eq]

theorem decodeVersion_keeps_user (a : Attrs) (m : DotthzMetaData) :
    (decodeVersion a m).user = m.user := by
  rw [decodeVersion_eq]

theorem decodeVersion_keeps_email (a : Attrs) (m : DotthzMetaData) :
    (decodeVersion a m).email = m.email := by
  rw [decodeVersion_eq]

theorem decodeVersion_keeps_orcid (a : Attrs) (m : DotthzMetaData) :
    (decodeVersion a m).orcid = m.orcid := by
  rw [decodeVersion_eq]

theorem decodeVersion_keeps_institution (a : Attrs) (m : DotthzMetaData) :
    (decodeVersion a m).institution = m.institution := by
  rw [decodeVersion_eq]

theorem decodeVersion_keeps_description (a : Attrs) (m : DotthzMetaData) :
    (decodeVersion a m).description = m.description := by
  rw [decodeVersion_eq]

theorem decodeVersion_keeps_md (a : Attrs) (m : DotthzMetaData) :
    (decodeVersion a m).md = m.md := by
  rw [decodeVersion_eq]

theorem decodeVersion_keeps_ds_description (a : Attrs) (m : DotthzMetaData) :
    (decodeVersion a m).ds_description = m.ds_description := by
  rw [decodeVersion_eq]

theorem decodeVersion_keeps_mode (a : Attrs) (m : DotthzMetaData) :
    (decodeVersion a m).mode = m.mode := by
  rw [decodeVersion_eq]

theorem decodeVersion_keeps_instrument (a : Attrs) (m : DotthzMetaData) :
    (decodeVersion a m).instrument = m.instrument := by
  rw [decodeVersion_eq]

theorem decodeVersion_keeps_time (a : Attrs) (m : DotthzMetaData) :
    (decodeVersion a m).time = m.time := by
  rw [decodeVersion_eq]

theorem decodeVersion_keeps_date (a : Attrs) (m : DotthzMetaData) :
    (decodeVersion a m).date = m.date := by
  rw [decodeVersion_eq]

theorem decodeDescription_keeps_user (a : Attrs) (m : DotthzMetaData) :
    (decodeDescription a m).user = m.user := by
  rw [decodeDescription_eq]

theorem decodeDescription_keeps_email (a : Attrs) (m : DotthzMetaData) :
    (decodeDescription a m).email = m.email := by
  rw [decodeDescription_eq]

theorem decodeDescription_keeps_orcid (a : Attrs) (m : DotthzMetaData) :
    (decodeDescription a m).orcid = m.orcid := by
  rw [decodeDescription_eq]

theorem decodeDescription_keeps_institution (a : Attrs) (m : DotthzMetaData) :
    (decodeDescription a m).institution = m.institution := by
  rw [decodeDescription_eq]

theorem decodeDescription_keeps_md (a : Attrs) (m : DotthzMetaData) :
    (decodeDescription a m).md = m.md := by
  rw [decodeDescription_eq]

theorem decodeDescription_keeps_ds_description (a : Attrs) (m : DotthzMetaData) :
    (decodeDescription a m).ds_description = m.ds_description := by
  rw [decodeDescription_eq]

theorem decodeDescription_keeps_version (a : Attrs) (m : DotthzMetaData) :
    (decodeDescription a m).version = m.version := by
  rw [decodeDescription_eq]

theorem decodeDescription_keeps_mode (a : Attrs) (m : DotthzMetaData) :
    (decodeDescription a m).mode = m.mode := by
  rw [decodeDescription_eq]

theorem decodeDescription_keeps_instrument (a : Attrs) (m : DotthzMetaData) :
    (decodeDescription a m).instrument = m.instrument := by
  rw [decodeDescription_eq]

theorem decodeDescription_keeps_time (a : Attrs) (m : DotthzMetaData) :
    (decodeDescription a m).time = m.time := by
  rw [decodeDescription_eq]

theorem decodeDescription_keeps_date (a : Attrs) (m : DotthzMetaData) :
    (decodeDescription a m).date = m.date := by
  rw [decodeDescription_eq]

theorem decodeTime_keeps_user (a : Attrs) (m : DotthzMetaData) :
    (decodeTime a m).user = m.user := by
  rw [decodeTime_eq]

theorem decodeTime_keeps_email (a : Attrs) (m : DotthzMetaData) :
    (decodeTime a m).email = m.email := by
  rw [decodeTime_eq]

theorem decodeTime_keeps_orcid (a : Attrs) (m : DotthzMetaData) :
    (decodeTime a m).orcid = m.orcid := by
  rw [decodeTime_eq]

theorem decodeTime_keeps_institution (a : Attrs) (m : DotthzMetaData) :
    (decodeTime a m).institution = m.institution := by
  rw [decodeTime_eq]

theorem decodeTime_keeps_description (a : Attrs) (m : DotthzMetaData) :
    (decodeTime a m).description = m.description := by
  rw [decodeTime_eq]

theorem decodeTime_keeps_md (a : Attrs) (m : DotthzMetaData) :
    (decodeTime a m).md = m.md := by
  rw [decodeTime_eq]

theorem decodeTime_keeps_ds_description (a : Attrs) (m : DotthzMetaData) :
    (decodeTime a m).ds_description = m.ds_description := by
  rw [decodeTime_eq]

theorem decodeTime_keeps_version (a : Attrs) (m : DotthzMetaData) :
    (decodeTime a m).version = m.version := by
  rw [decodeTime_eq]

theorem decodeTime_keeps_mode (a : Attrs) (m : DotthzMetaData) :
    (decodeTime a m).mode = m.mode := by
  rw [decodeTime_eq]

theorem decodeTime_keeps_instrument (a : Attrs) (m : DotthzMetaData) :
    (decodeTime a m).instrument = m.instrument := by
  rw [decodeTime_eq]

theorem decodeTime_keeps_date (a : Attrs) (m : DotthzMetaData) :
    (decodeTime a m).date = m.date := by
  rw [decodeTime_eq]

theorem decodeDate_keeps_user (a : Attrs) (m : DotthzMetaData) :
    (decodeDate a m).user = m.user := by
  rw [decodeDate_eq]

theorem decodeDate_keeps_email (a : Attrs) (m : DotthzMetaData) :
    (decodeDate a m).email = m.email := by
  rw [decodeDate_eq]

theorem decodeDate_keeps_orcid (a : Attrs) (m : DotthzMetaData) :
    (decodeDate a m).orcid = m.orcid := by
  rw [decodeDate_eq]

theorem decodeDate_keeps_institution (a : Attrs) (m : DotthzMetaData) :
    (decodeDate a m).institution = m.institution := by
  rw [decodeDate_eq]

theorem decodeDate_keeps_description (a : Attrs) (m : DotthzMetaData) :
    (decodeDate a m).description = m.description := by
  rw [decodeDate_eq]

theorem decodeDate_keeps_md (a : Attrs) (m : DotthzMetaData) :
    (decodeDate a m).md = m.md := by
  rw [decodeDate_eq]

theorem decodeDate_keeps_ds_description (a : Attrs) (m : DotthzMetaData) :
    (decodeDate a m).ds_description = m.ds_description := by
  rw [decodeDate_eq]

theorem decodeDate_keeps_version (a : Attrs) (m : DotthzMetaData) :
    (decodeDate a m).version = m.version := by
  rw [decodeDate_eq]

theorem decodeDate_keeps_mode (a : Attrs) (m : DotthzMetaData) :
    (decodeDate a m).mode = m.mode := by
  rw [decodeDate_eq]

theorem decodeDate_keeps_instrument (a : Attrs) (m : DotthzMetaData) :
    (decodeDate a m).instrument = m.instrument := by
  rw [decodeDate_eq]

theorem decodeDate_keeps_time (a : Attrs) (m : DotthzMetaData) :
    (decodeDate a m).time = m.time := by
  rw [decodeDate_eq]

theorem decodeUser_keeps_description (a : Attrs) (m : DotthzMetaData) :
    (decodeUser a m).description = m.description := by
  rw [decodeUser_eq]
  rcases hd : (readRawText a nUser).bind List.head? with _ | d <;> simp only [hd]

theorem decodeUser_keeps_md (a : Attrs) (m : DotthzMetaData) :
    (decodeUser a m).md = m.md := by
  rw [decodeUser_eq]
  rcases hd : (readRawText a nUser).bind List.head? with _ | d <;> simp only [hd]

theorem decodeUser_keeps_ds_description (a : Attrs) (m : DotthzMetaData) :
    (decodeUser a m).ds_description = m.ds_description := by
  rw [decodeUser_eq]
  rcases hd : (readRawText a nUser).bind List.head? with _ | d <;> simp only [hd]

theorem decodeUser_keeps_version (a : Attrs) (m : DotthzMetaData) :
    (decodeUser a m).version = m.version := by
  rw [decodeUser_eq]
  rcases hd : (readRawText a nUser).bind List.head? with _ | d <;> simp only [hd]

theorem decodeUser_keeps_mode (a : Attrs) (m : DotthzMetaData) :
    (decodeUser a m).mode = m.mode := by
  rw [decodeUser_eq]
  rcases hd : (readRawText a nUser).bind List.head? with _ | d <;> simp only [hd]

theorem decodeUser_keeps_instrument (a : Attrs) (m : DotthzMetaData) :
    (decodeUser a m).instrument = m.instrument := by
  rw [decodeUser_eq]
  rcases hd : (readRawText a nUser).bind List.head? with _ | d <;> simp only [hd]

theorem decodeUser_keeps_time (a : Attrs) (m : DotthzMetaData) :
    (decodeUser a m).time = m.time := by
  rw [decodeUser_eq]
  rcases hd : (readRawText a nUser).bind List.head? with _ | d <;> simp only [hd]

theorem decodeUser_keeps_date (a : Attrs) (m : DotthzMetaData) :
    (decodeUser a m).date = m.date := by
  rw [decodeUser_eq]
  rcases hd : (readRawText a nUser).bind List.head? with _ | d <;> simp only [hd]

theorem decodeInstrument_sets (a : Attrs) (m : DotthzMetaData) :
    (decodeInstrument a m).instrument = ((readRawText a nInstrument).bind List.head?).getD m.instrument := by
  rw [decodeInstrument_eq]

theorem decodeDs_sets (a : Attrs) (m : DotthzMetaData) :
    (decodeDs a m).ds_description = ((readRawText a nDsDescription).map dsDescriptions).getD m.ds_description := by
  rw [decodeDs_eq]

theorem decodeMd_sets (f : Nat → Str) (a : Attrs) (m : DotthzMetaData) :
    (decodeMd f a m).md = ((readRawText a nMdDescription).map
      (fun stored => mdReadLoop f a (unpackDescriptor stored) 0 m.md)).getD m.md := by
  rw [decodeMd_eq]

theorem decodeMode_sets (a : Attrs) (m : DotthzMetaData) :
    (decodeMode a m).mode = ((readRawText a nMode).bind List.head?).getD m.mode := by
  rw [decodeMode_eq]

theorem decodeVersion_sets (a : Attrs) (m : DotthzMetaData) :
    (decodeVersion a m).version = ((readRawText a nThzVer).bind List.head?).getD m.version := by
  rw [decodeVersion_eq]

theorem decodeDescription_sets (a : Attrs) (m : DotthzMetaData) :
    (decodeDescription a m).description = ((readRawText a nDescription).bind List.head?).getD m.description := by
  rw [decodeDescription_eq]

theorem decodeTime_sets (a : Attrs) (m : DotthzMetaData) :
    (decodeTime a m).time = ((readRawText a nTime).bind List.head?).getD m.time := by
  rw [decodeTime_eq]

theorem decodeDate_sets (a : Attrs) (m : DotthzMetaData) :
    (decodeDate a m).date = ((readRawText a nDate).bind List.head?).getD m.date := by
  rw [decodeDate_eq]

theorem decodeUser_sets_orcid (a : Attrs) (m : DotthzMetaData) :
    (decodeUser a m).orcid = ((readRawText a nUser).bind List.head?).elim m.orcid
      (fun d => ((splitChar '/' d).head?).elim m.orcid rustTrim) := by
  rw [decodeUser_eq]
  rcases hd : (readRawText a nUser).bind List.head? with _ | d <;> simp only [hd, Option.elim]

theorem decodeUser_sets_user (a : Attrs) (m : DotthzMetaData) :
    (decodeUser a m).user = ((readRawText a nUser).bind List.head?).elim m.user
      (fun d => (List.get? (splitChar '/' d) 1).elim m.user rustTrim) := by
  rw [decodeUser_eq]
  rcases hd : (readRawText a nUser).bind List.head? with _ | d <;> simp only [hd, Option.elim]

theorem decodeUser_sets_email (a : Attrs) (m : DotthzMetaData) :
    (decodeUser a m).email = ((readRawText a nUser).bind List.head?).elim m.email
      (fun d => (List.get? (splitChar '/' d) 2).elim m.email rustTrim) := by
  rw [decodeUser_eq]
  rcases hd : (readRawText a nUser).bind List.head? with _ | d <;> simp only [hd, Option.elim]

theorem decodeUser_sets_institution (a : Attrs) (m : DotthzMetaData) :
    (decodeUser a m).institution = ((readRawText a nUser).bind List.head?).elim m.institution
      (fun d => (List.get? (splitChar '/' d) 3).elim m.institution rustTrim) := by
  rw [decodeUser_eq]
  rcases hd : (readRawText a nUser).bind List.head? with _ | d <;> simp only [hd, Option.elim]

/-! ## Per-field characterization of `get_meta_data` -/

theorem getMetaData_user (f : Nat → Str) (a : Attrs) :
    (getMetaData f a).user = userField a 1 := by
  unfold getMetaData
  rw [decodeUser_sets_user,
    decodeDate_keeps_user,
    decodeTime_keeps_user,
    decodeDescription_keeps_user,
    decodeVersion_keeps_user,
    decodeMode_keeps_user,
    decodeMd_keeps_user,
    decodeDs_keeps_user,
    decodeInstrument_keeps_user]
  simp [userField, defaultMeta]

theorem getMetaData_email (f : Nat → Str) (a : Attrs) :
    (getMetaData f a).email = userField a 2 := by
  unfold getMetaData
  rw [decodeUser_sets_email,
    decodeDate_keeps_email,
    decodeTime_keeps_email,
    decodeDescription_keeps_email,
    decodeVersion_keeps_email,
    decodeMode_keeps_email,
    decodeMd_keeps_email,
    decodeDs_keeps_email,
    decodeInstrument_keeps_email]
  simp [userField, defaultMeta]

theorem getMetaData_orcid (f : Nat → Str) (a : Attrs) :
    (getMetaData f a).orcid = userField a 0 := by
  unfold getMetaData
  rw [decodeUser_sets_orcid,
    decodeDate_keeps_orcid,
    decodeTime_keeps_orcid,
    decodeDescription_keeps_orcid,
    decodeVersion_keeps_orcid,
    decodeMode_keeps_orcid,
    decodeMd_keeps_orcid,
    decodeDs_keeps_orcid,
    decodeInstrument_keeps_orcid]
  simp [userField_zero, defaultMeta]

theorem getMetaData_institution (f : Nat → Str) (a : Attrs) :
    (getMetaData f a).institution = userField a 3 := by
  unfold getMetaData
  rw [decodeUser_sets_institution,
    decodeDate_keeps_institution,
    decodeTime_keeps_institution,
    decodeDescription_keeps_institution,
    decodeVersion_keeps_institution,
    decodeMode_keeps_institution,
    decodeMd_keeps_institution,
    decodeDs_keeps_institution,
    decodeInstrument_keeps_institution]
  simp [userField, defaultMeta]

theorem getMetaData_description (f : Nat → Str) (a : Attrs) :
    (getMetaData f a).description = scalarField a nDescription := by
  unfold getMetaData
  rw [decodeUser_keeps_description,
    decodeDate_keeps_description,
    decodeTime_keeps_description,
    decodeDescription_sets,
    decodeVersion_keeps_description,
    decodeMode_keeps_description,
    decodeMd_keeps_description,
    decodeDs_keeps_description,
    decodeInstrument_keeps_description]
  simp [scalarField, defaultMeta]

theorem getMetaData_md (f : Nat → Str) (a : Attrs) :
    (getMetaData f a).md = ((readRawText a nMdDescription).map
      (fun stored => mdReadLoop f a (unpackDescriptor stored) 0 [])).getD [] := by
  unfold getMetaData
  rw [decodeUser_keeps_md,
    decodeDate_keeps_md,
    decodeTime_keeps_md,
    decodeDescription_keeps_md,
    decodeVersion_keeps_md,
    decodeMode_keeps_md,
    decodeMd_sets,
    decodeDs_keeps_md,
    decodeInstrument_keeps_md]
  simp [defaultMeta]

theorem getMetaData_ds_description (f : Nat → Str) (a : Attrs) :
    (getMetaData f a).ds_description = ((readRawText a nDsDescription).map dsDescriptions).getD [] := by
  unfold getMetaData
  rw [decodeUser_keeps_ds_description,
    decodeDate_keeps_ds_description,
    decodeTime_keeps_ds_description,
    decodeDescription_keeps_ds_description,
    decodeVersion_keeps_ds_description,
    decodeMode_keeps_ds_description,
    decodeMd_keeps_ds_description,
    decodeDs_sets,
    decodeInstrument_keeps_ds_description]
  simp [defaultMeta]

theorem getMetaData_version (f : Nat → Str) (a : Attrs) :
    (getMetaData f a).version = scalarField a nThzVer := by
  unfold getMetaData
  rw [decodeUser_keeps_version,
    decodeDate_keeps_version,
    decodeTime_keeps_version,
    decodeDescription_keeps_version,
    decodeVersion_sets,
    decodeMode_keeps_version,
    decodeMd_keeps_version,
    decodeDs_keeps_version,
    decodeInstrument_keeps_version]
  simp [scalarField, defaultMeta]

theorem getMetaData_mode (f : Nat → Str) (a : Attrs) :
    (getMetaData f a).mode = scalarField a nMode := by
  unfold getMetaData
  rw [decodeUser_keeps_mode,
    decodeDate_keeps_mode,
    decodeTime_keeps_mode,
    decodeDescription_keeps_mode,
    decodeVersion_keeps_mode,
    decodeMode_sets,
    decodeMd_keeps_mode,
    decodeDs_keeps_mode,
    decodeInstrument_keeps_mode]
  simp [scalarField, defaultMeta]

theorem getMetaData_instrument (f : Nat → Str) (a : Attrs) :
    (getMetaData f a).instrument = scalarField a nInstrument := by
  unfold getMetaData
  rw [decodeUser_keeps_instrument,
    decodeDate_keeps_instrument,
    decodeTime_keeps_instrument,
    decodeDescription_keeps_instrument,
    decodeVersion_keeps_instrument,
    decodeMode_keeps_instrument,
    decodeMd_keeps_instrument,
    decodeDs_keeps_instrument,
    decodeInstrument_sets]
  simp [scalarField, defaultMeta]

theorem getMetaData_time (f : Nat → Str) (a : Attrs) :
    (getMetaData f a).time = scalarField a nTime := by
  unfold getMetaData
  rw [decodeUser_keeps_time,
    decodeDate_keeps_time,
    decodeTime_sets,
    decodeDescription_keeps_time,
    decodeVersion_keeps_time,
    decodeMode_keeps_time,
    decodeMd_keeps_time,
    decodeDs_keeps_time,
    decodeInstrument_keeps_time]
  simp [scalarField, defaultMeta]

theorem getMetaData_date (f : Nat → Str) (a : Attrs) :
    (getMetaData f a).date = scalarField a nDate := by
  unfold getMetaData
  rw [decodeUser_keeps_date,
    decodeDate_sets,
    decodeTime_keeps_date,
    decodeDescription_keeps_date,
    decodeVersion_keeps_date,
    decodeMode_keeps_date,
    decodeMd_keeps_date,
    decodeDs_keeps_date,
    decodeInstrument_keeps_date]
  simp [scalarField, defaultMeta]


/-! ## Splitting and joining lemmas -/

theorem splitChar_ne_nil (c : Char) : ∀ s, splitChar c s ≠ [] := by
  intro s
  match s with
  | [] => simp [splitChar]
  | x :: xs =>
    rw [splitChar]
    split
    · simp
    · split <;> simp

theorem splitChar_not_mem {c : Char} : ∀ {a : Str}, c ∉ a → splitChar c a = [a] := by
  intro a
  induction a with
  | nil => intro _; rfl
  | cons x xs ih =>
    intro h
    have hx : ¬x = c := fun he => h (by simp [he])
    have hxs : c ∉ xs := fun hm => h (List.mem_cons_of_mem _ hm)
    rw [splitChar, if_neg hx, ih hxs]

theorem splitChar_append {c : Char} : ∀ {a : Str}, c ∉ a → ∀ b,
    splitChar c (a ++ c :: b) = a :: splitChar c b := by
  intro a
  induction a with
  | nil =>
    intro _ b
    simp [splitChar]
  | cons x xs ih =>
    intro h b
    have hx : ¬x = c := fun he => h (by simp [he])
    have hxs : c ∉ xs := fun hm => h (List.mem_cons_of_mem _ hm)
    rw [List.cons_append, splitChar, if_neg hx, ih hxs b]

theorem splitChar_userComposite {m : DotthzMetaData}
    (ho : ('/' : Char) ∉ m.orcid) (hu : ('/' : Char) ∉ m.user)
    (he : ('/' : Char) ∉ m.email) (hi : ('/' : Char) ∉ m.institution) :
    splitChar '/' (userComposite m) = [m.orcid, m.user, m.email, m.institution] := by
  unfold userComposite
  rw [splitChar_append ho, splitChar_append hu, splitChar_append he, splitChar_not_mem hi]

theorem splitCS_ne_nil : ∀ s, splitCommaSpace s ≠ [] := by
  intro s
  rw [splitCommaSpace.eq_def]
  split
  · simp
  · split <;> simp
  · simp

theorem splitCS_cons {c : Char} {rest : Str} (h : ¬(c = ',' ∧ rest.head? = some ' ')) :
    splitCommaSpace (c :: rest) =
      match splitCommaSpace rest with
      | r :: rs => (c :: r) :: rs
      | [] => [[c]] := by
  rw [splitCommaSpace.eq_def]
  split
  · rename_i rest₀ heq
    injection heq with h₁ h₂
    exact absurd ⟨h₁, by rw [h₂]; rfl⟩ h
  · rename_i x c₀ rest₀ hno heq
    injection heq with h₁ h₂
    subst h₁
    subst h₂
    rfl
  · rename_i heq
    cases heq

theorem containsCS_cons_false_iff (c : Char) (rest : Str) :
    containsCommaSpace (c :: rest) = false ↔
      ((c = ',' → ¬rest.head? = some ' ') ∧ containsCommaSpace rest = false) := by
  simp [containsCommaSpace]

theorem splitCS_no_sep : ∀ {a : Str}, containsCommaSpace a = false → splitCommaSpace a = [a] := by
  intro a
  induction a with
  | nil => intro _; rfl
  | cons c rest ih =>
    intro h
    rw [containsCS_cons_false_iff] at h
    obtain ⟨h₁, h₂⟩ := h
    have hc : ¬(c = ',' ∧ rest.head? = some ' ') := by
      rintro ⟨hc₁, hc₂⟩
      exact h₁ hc₁ hc₂
    rw [splitCS_cons hc, ih h₂]

theorem splitCS_append : ∀ {a : Str}, containsCommaSpace a = false → ∀ b,
    splitCommaSpace (a ++ ',' :: ' ' :: b) = a :: splitCommaSpace b := by
  intro a
  induction a with
  | nil =>
    intro _ b
    rfl
  | cons c rest ih =>
    intro h b
    rw [containsCS_cons_false_iff] at h
    obtain ⟨h₁, h₂⟩ := h
    have hc : ¬(c = ',' ∧ (rest ++ ',' :: ' ' :: b).head? = some ' ') := by
      rintro ⟨hc₁, hc₂⟩
      cases rest with
      | nil => simp at hc₂
      | cons x xs =>
        simp at hc₂
        exact h₁ hc₁ (by simp [hc₂])
    rw [List.cons_append, splitCS_cons hc, ih h₂ b]

theorem splitCS_join : ∀ {keys : List Str}, keys ≠ [] →
    (∀ k ∈ keys, containsCommaSpace k = false) →
    splitCommaSpace (joinCommaSpace keys) = keys := by
  intro keys
  induction keys with
  | nil => intro h _; exact absurd rfl h
  | cons k rest ih =>
    intro _ h
    cases rest with
    | nil => exact splitCS_no_sep (h k (by simp))
    | cons k₂ rest₂ =>
      rw [show joinCommaSpace (k :: k₂ :: rest₂) = k ++ ',' :: ' ' :: joinCommaSpace (k₂ :: rest₂) from rfl,
        splitCS_append (h k (by simp)), ih (by simp) (fun x hx => h x (List.mem_cons_of_mem _ hx))]


/-! ## Congruence of the decode loop in the attribute store -/

theorem readRawText_congr {a b : Attrs} {n : Str} (h : getAttr a n = getAttr b n) :
    readRawText a n = readRawText b n := by
  unfold readRawText
  rw [h]

theorem readRawNum_congr {a b : Attrs} {n : Str} (h : getAttr a n = getAttr b n) :
    readRawNum a n = readRawNum b n := by
  unfold readRawNum
  rw [h]

theorem mdReadStep_congr {f : Nat → Str} {a b : Attrs} {i : Nat}
    (h : getAttr a (mdName i) = getAttr b (mdName i)) (key : Str) (acc : List (Str × Str)) :
    mdReadStep f a i key acc = mdReadStep f b i key acc := by
  unfold mdReadStep
  rw [readRawText_congr h, readRawNum_congr h]

theorem mdReadLoop_congr {f : Nat → Str} {a b : Attrs} :
    ∀ (keys : List Str) (i : Nat) (acc : List (Str × Str)),
      (∀ j, j < keys.length → getAttr a (mdName (i + j)) = getAttr b (mdName (i + j))) →
      mdReadLoop f a keys i acc = mdReadLoop f b keys i acc := by
  intro keys
  induction keys with
  | nil => intro i acc _; rfl
  | cons key rest ih =>
    intro i acc h
    unfold mdReadLoop
    rw [mdReadStep_congr (by simpa using h 0 (by simp)) key acc]
    exact ih (i + 1) _ (fun j hj => by
      have := h (j + 1) (by simpa using Nat.succ_lt_succ hj)
      rwa [show i + (j + 1) = i + 1 + j by omega] at this)

/-! ## Shared concrete parameters for the claim instances -/

/-- A model of `str::parse::<f32>` that always fails; used for concrete
instances whose annotation values are not float literals. -/
def parseNone : Str → Option Nat := fun _ => none

/-- A model of `str::parse::<f32>` that succeeds exactly on the literal
`1.5`; used for concrete instances exercising the float branch. -/
def parseOnly15 : Str → Option Nat := fun s => if s = "1.5".toList then some 0 else none

/-- A model of `format!` on an f32 value; the claims under test never
depend on the rendering, so the constant empty rendering suffices. -/
def formatNil : Nat → Str := fun _ => []


/-! ## Claim C5 -/

/-- C5: in the `md` read loop of `get_meta_data`, each recovered key at
position i reads attribute md(i+1) numeric-first: a readable numeric first
entry is reformatted (`f`) and inserted; exactly when the numeric read fails
does a readable text first entry get inserted; and when both reads fail the
accumulated map is left unchanged — the key is silently omitted and, the
model of `get_meta_data` being total on a readable group, no error is
raised. -/
theorem C5_md_read_numeric_first (f : Nat → Str) (a : Attrs) (i : Nat) (key : Str)
    (acc : List (Str × Str)) :
    mdReadStep f a i key acc =
      match getAttr a (mdName i) with
      | some (.num es) =>
        match es.head? with
        | some v => insertIM acc key (f v)
        | none => acc
      | some (.text es) =>
        match es.head? with
        | some s => insertIM acc key s
        | none => acc
      | none => acc := by
  unfold mdReadStep readRawNum readRawText
  cases h : getAttr a (mdName i) with
  | none => rfl
  | some val => cases val <;> rfl

/-! ## Claim C2 -/

/-- An attribute store whose annotations descriptor was written as the one
joined entry, with two text annotation attributes. -/
def mdKeysJoined : Attrs :=
  [(nMdDescription, .text ["Thickness (mm), Voltage".toList]),
   (mdName 0, .text ["0.52".toList]), (mdName 1, .text ["5".toList])]

/-- The same group with the descriptor written as two separate entries. -/
def mdKeysSeparate : Attrs :=
  [(nMdDescription, .text ["Thickness (mm)".toList, "Voltage".toList]),
   (mdName 0, .text ["0.52".toList]), (mdName 1, .text ["5".toList])]

/-- C2: the `mdDescription` decode rule splits a single stored entry on the
separator and takes two or more stored entries unchanged; consequently the
joined-entry group and the split-entry group decode to the same record, with
the ordered key list Thickness (mm), Voltage. -/
theorem C2_md_descriptor_dual_encoding :
    (∀ s, unpackDescriptor [s] = splitCommaSpace s) ∧
    (∀ stored, 2 ≤ stored.length → unpackDescriptor stored = stored) ∧
    (∀ f, getMetaData f mdKeysJoined = getMetaData f mdKeysSeparate) ∧
    (∀ f, (getMetaData f mdKeysJoined).md =
      [("Thickness (mm)".toList, "0.52".toList), ("Voltage".toList, "5".toList)]) := by
  refine ⟨fun s => rfl, ?_, fun f => rfl, fun f => rfl⟩
  intro stored h
  match stored with
  | [] => simp at h
  | [s] => simp at h
  | s₁ :: s₂ :: rest => rfl

/-- Witness for C2 at a concrete two-entry store. -/
theorem C2_md_descriptor_dual_encoding_witness :
    unpackDescriptor ["a".toList, "b".toList] = ["a".toList, "b".toList] :=
  C2_md_descriptor_dual_encoding.2.1 ["a".toList, "b".toList] (by decide)

/-! ## Claim C3 -/

/-- Counterexample to C3: on a two-entry `dsDescription` attribute the code
splits every entry (`flat_map`), so a multi-entry store whose first entry
contains the separator is not taken unchanged, contrary to the claimed dual
rule. -/
theorem C3_counterexample :
    dsDescriptions ["x, y".toList, "z".toList] = ["x".toList, "y".toList, "z".toList] ∧
    dsDescriptions ["x, y".toList, "z".toList] ≠ ["x, y".toList, "z".toList] ∧
    (getMetaData formatNil [(nDsDescription, AttrVal.text ["x, y".toList, "z".toList])]).ds_description
      = ["x".toList, "y".toList, "z".toList] := by
  refine ⟨rfl, by decide, rfl⟩

/-- C3 as amended: the `dsDescription` decode splits every stored entry on
the separator and concatenates the pieces positionally; this agrees with
splitting when the store holds a single entry, and with taking the entries
unchanged when no stored entry contains the separator — but not on
multi-entry stores with an embedded separator. -/
theorem C3_ds_descriptor_flat_map :
    (∀ f a stored, readRawText a nDsDescription = some stored →
      (getMetaData f a).ds_description = stored.flatMap splitCommaSpace) ∧
    (∀ s, dsDescriptions [s] = splitCommaSpace s) ∧
    (∀ stored, (∀ s ∈ stored, containsCommaSpace s = false) →
      dsDescriptions stored = stored) := by
  refine ⟨?_, ?_, ?_⟩
  · intro f a stored h
    rw [getMetaData_ds_description, h]
    rfl
  · intro s
    simp [dsDescriptions]
  · intro stored h
    induction stored with
    | nil => rfl
    | cons s rest ih =>
      unfold dsDescriptions at ih ⊢
      rw [List.flatMap_cons, splitCS_no_sep (h s (by simp)),
        ih (fun x hx => h x (List.mem_cons_of_mem _ hx))]
      rfl

/-- Witness for C3 as amended, at a concrete store and a concrete
separator-free entry list. -/
theorem C3_ds_descriptor_flat_map_witness :
    (getMetaData formatNil [(nDsDescription, AttrVal.text ["p".toList, "q".toList])]).ds_description
      = ["p".toList, "q".toList] ∧
    dsDescriptions ["p".toList, "q".toList] = ["p".toList, "q".toList] := by
  constructor
  · rw [C3_ds_descriptor_flat_map.1 formatNil
      [(nDsDescription, AttrVal.text ["p".toList, "q".toList])] ["p".toList, "q".toList] rfl]
    decide
  · exact C3_ds_descriptor_flat_map.2.2 ["p".toList, "q".toList] (by decide)

/-! ## Claim C7 -/

/-- C7: decode never fails for a missing attribute — the model of
`get_meta_data` is total in the group's attribute store (the source returns
an error only when the group itself cannot be opened), and each absent
attribute leaves its field(s) at the default empty value. -/
theorem C7_absent_attribute_defaults (f : Nat → Str) (a : Attrs) :
    (getAttr a nInstrument = none → (getMetaData f a).instrument = []) ∧
    (getAttr a nMode = none → (getMetaData f a).mode = []) ∧
    (getAttr a nThzVer = none → (getMetaData f a).version = []) ∧
    (getAttr a nDescription = none → (getMetaData f a).description = []) ∧
    (getAttr a nTime = none → (getMetaData f a).time = []) ∧
    (getAttr a nDate = none → (getMetaData f a).date = []) ∧
    (getAttr a nDsDescription = none → (getMetaData f a).ds_description = []) ∧
    (getAttr a nMdDescription = none → (getMetaData f a).md = []) ∧
    (getAttr a nUser = none →
      (getMetaData f a).user = [] ∧ (getMetaData f a).email = [] ∧
      (getMetaData f a).orcid = [] ∧ (getMetaData f a).institution = []) := by
  refine ⟨?_, ?_, ?_, ?_, ?_, ?_, ?_, ?_, ?_⟩
  · intro h; rw [getMetaData_instrument]; unfold scalarField readRawText; rw [h]; rfl
  · intro h; rw [getMetaData_mode]; unfold scalarField readRawText; rw [h]; rfl
  · intro h; rw [getMetaData_version]; unfold scalarField readRawText; rw [h]; rfl
  · intro h; rw [getMetaData_description]; unfold scalarField readRawText; rw [h]; rfl
  · intro h; rw [getMetaData_time]; unfold scalarField readRawText; rw [h]; rfl
  · intro h; rw [getMetaData_date]; unfold scalarField readRawText; rw [h]; rfl
  · intro h; rw [getMetaData_ds_description]; unfold readRawText; rw [h]; rfl
  · intro h; rw [getMetaData_md]; unfold readRawText; rw [h]; rfl
  · intro h
    refine ⟨?_, ?_, ?_, ?_⟩ <;>
      [rw [getMetaData_user]; rw [getMetaData_email]; rw [getMetaData_orcid];
        rw [getMetaData_institution]] <;>
      unfold userField readRawText <;> rw [h] <;> rfl

/-- Witness for C7: a group with no attributes at all decodes to the default
record. -/
theorem C7_absent_attribute_defaults_witness :
    (getMetaData formatNil []).instrument = [] ∧ (getMetaData formatNil []).user = [] :=
  ⟨(C7_absent_attribute_defaults formatNil []).1 rfl,
   ((C7_absent_attribute_defaults formatNil []).2.2.2.2.2.2.2.2 rfl).1⟩


/-! ## Claim C4 -/

/-- Counterexample to C4: on a fresh group (attribute `md1` absent) the
encoder stores an annotation value that does parse as a float — here under a
parse model accepting the literal 1.5 — as a text scalar, never attempting
the numeric store; the claimed parse-first rule does not hold regardless of
whether the attribute already exists. -/
theorem C4_counterexample :
    parseOnly15 "1.5".toList = some 0 ∧
    (setMetaData parseOnly15 [] { defaultMeta with md := [("k".toList, "1.5".toList)] }).map
      (fun a => getAttr a (mdName 0)) = some (some (.text ["1.5".toList])) := by
  constructor
  · decide
  · decide

/-- C4 as amended: the parse-value-as-f32-first rule applies only when the
`md` attribute for that 1-indexed position already exists on the group
(numeric store on parse success — which on an existing one-element numeric
attribute succeeds — and text store on parse failure); when the attribute
does not exist, the value is stored as a text scalar without attempting the
float parse, whatever the parse function would say. -/
theorem C4_md_write_parse_only_when_existing :
    (∀ (p : Str → Option Nat) (a : Attrs) (i : Nat) (v : Str),
      getAttr a (mdName i) = none → v.contains (Char.ofNat 0) = false →
      putMdAttr p a i v = some (setAttr a (mdName i) (.text [v]))) ∧
    (∀ (p : Str → Option Nat) (a : Attrs) (i : Nat) (v : Str) (es : List Nat) (x : Nat),
      getAttr a (mdName i) = some (.num es) → es.length = 1 → p v = some x →
      putMdAttr p a i v = some (setAttr a (mdName i) (.num [x]))) ∧
    (∀ (p : Str → Option Nat) (a : Attrs) (i : Nat) (v : Str) (es : List Str),
      getAttr a (mdName i) = some (.text es) → es.length = 1 → p v = none →
      v.contains (Char.ofNat 0) = false →
      putMdAttr p a i v = some (setAttr a (mdName i) (.text [v]))) := by
  refine ⟨?_, ?_, ?_⟩
  · intro p a i v h hnul
    unfold putMdAttr vluFromStr
    rw [h, hnul]
    rfl
  · intro p a i v es x h hlen hp
    unfold putMdAttr
    rw [h, hp]
    simp [hlen]
  · intro p a i v es h hlen hp hnul
    unfold putMdAttr vluFromStr
    rw [h, hp, hnul]
    simp [hlen]

/-- Witness for C4 as amended: the fresh-group branch stores text even for a
parsable value, and the existing-numeric branch stores the parsed number. -/
theorem C4_md_write_parse_only_when_existing_witness :
    putMdAttr parseOnly15 [] 0 "1.5".toList
      = some (setAttr [] (mdName 0) (.text ["1.5".toList])) ∧
    putMdAttr parseOnly15 [(mdName 0, AttrVal.num [3])] 0 "1.5".toList
      = some (setAttr [(mdName 0, AttrVal.num [3])] (mdName 0) (.num [0])) :=
  ⟨C4_md_write_parse_only_when_existing.1 parseOnly15 [] 0 "1.5".toList rfl (by decide),
   C4_md_write_parse_only_when_existing.2.1 parseOnly15 [(mdName 0, AttrVal.num [3])] 0
     "1.5".toList [3] 0 (by decide) rfl (by decide)⟩

/-! ## Claim C10 -/

/-- A record whose `user` field carries a leading space; its round trip
through a fresh group differs from it in that field. -/
def mLeadingSpace : DotthzMetaData := { defaultMeta with user := " x".toList }

/-- C10: the `user`-composite decode trims each of the four subfields before
storing it, so a record whose user field has a leading space does not round
trip: decode(encode(record)) returns the trimmed field. -/
theorem C10_subfields_trimmed :
    (∀ (f : Nat → Str) (a : Attrs) (d : Str) (es : List Str),
      getAttr a nUser = some (.text (d :: es)) →
      (getMetaData f a).orcid = ((splitChar '/' d).head?).elim [] rustTrim ∧
      (getMetaData f a).user = (List.get? (splitChar '/' d) 1).elim [] rustTrim ∧
      (getMetaData f a).email = (List.get? (splitChar '/' d) 2).elim [] rustTrim ∧
      (getMetaData f a).institution = (List.get? (splitChar '/' d) 3).elim [] rustTrim) ∧
    ((setMetaData parseNone [] mLeadingSpace).map
      (fun a => (getMetaData formatNil a).user) = some "x".toList ∧
      mLeadingSpace.user = " x".toList ∧ "x".toList ≠ " x".toList) := by
  constructor
  · intro f a d es h
    have hr : readRawText a nUser = some (d :: es) := by
      unfold readRawText
      rw [h]
    refine ⟨?_, ?_, ?_, ?_⟩
    · rw [getMetaData_orcid, userField_zero, hr]
      rfl
    · rw [getMetaData_user]
      unfold userField
      rw [hr]
      rfl
    · rw [getMetaData_email]
      unfold userField
      rw [hr]
      rfl
    · rw [getMetaData_institution]
      unfold userField
      rw [hr]
      rfl
  · refine ⟨by decide, rfl, by decide⟩

/-- Witness for C10 at a concrete store whose first subfield carries
whitespace. -/
theorem C10_subfields_trimmed_witness :
    (getMetaData formatNil [(nUser, AttrVal.text ["a/ b".toList])]).orcid = "a".toList ∧
    (getMetaData formatNil [(nUser, AttrVal.text ["a/ b".toList])]).user = "b".toList := by
  obtain ⟨h₀, h₁, _, _⟩ := C10_subfields_trimmed.1 formatNil
    [(nUser, AttrVal.text ["a/ b".toList])] ("a/ b".toList) [] rfl
  rw [h₀, h₁]
  constructor <;> decide


/-! ## Claim C6 -/

/-- Counterexample to C6: decode is not a pure positional split on the
stored composite — the part at position 1 of the split of `a/ b` is the
string of a space followed by b, but the decoded user field is the trimmed
b, so "decoded by splitting on / positionally" fails as stated. -/
theorem C6_counterexample :
    splitChar '/' "a/ b".toList = ["a".toList, " b".toList] ∧
    (getMetaData formatNil [(nUser, AttrVal.text ["a/ b".toList])]).user = "b".toList ∧
    "b".toList ≠ " b".toList := by
  refine ⟨by decide, by decide, by decide⟩

/-- C6 as amended: the identity quartet is encoded as the single text
attribute joining orcid/user/email/institution with `/` in that fixed order
(shown on any successful encode into a fresh group, and on the spec's
concrete quartet); it is decoded by splitting on `/` positionally with each
recovered subfield additionally trimmed of surrounding whitespace, and a
composite with fewer than 4 parts populates only the leading fields, the
trailing fields keeping their default empty values, without error. -/
theorem C6_identity_composite :
    (∀ (p : Str → Option Nat) (m : DotthzMetaData) (a : Attrs),
      setMetaData p [] m = some a →
      getAttr a nUser = some (.text [m.orcid ++ '/' :: (m.user ++ '/' :: (m.email ++ '/' :: m.institution))])) ∧
    (userComposite { defaultMeta with
        orcid := "0000-0001-2345-6789".toList, user := "Test User".toList,
        email := "test@example.com".toList, institution := "Test Institute".toList }
      = "0000-0001-2345-6789/Test User/test@example.com/Test Institute".toList) ∧
    (∀ (f : Nat → Str) (a : Attrs) (d : Str) (es : List Str),
      getAttr a nUser = some (.text (d :: es)) →
      (getMetaData f a).orcid = ((splitChar '/' d).head?).elim [] rustTrim ∧
      (getMetaData f a).user = (List.get? (splitChar '/' d) 1).elim [] rustTrim ∧
      (getMetaData f a).email = (List.get? (splitChar '/' d) 2).elim [] rustTrim ∧
      (getMetaData f a).institution = (List.get? (splitChar '/' d) 3).elim [] rustTrim) := by
  refine ⟨?_, by decide, ?_⟩
  · intro p m a h
    exact (setMetaData_lookup allText_nil h).2.2.2.2.2.2.1
  · intro f a d es h
    have hr : readRawText a nUser = some (d :: es) := by
      unfold readRawText
      rw [h]
    refine ⟨?_, ?_, ?_, ?_⟩
    · rw [getMetaData_orcid, userField_zero, hr]
      rfl
    · rw [getMetaData_user]
      unfold userField
      rw [hr]
      rfl
    · rw [getMetaData_email]
      unfold userField
      rw [hr]
      rfl
    · rw [getMetaData_institution]
      unfold userField
      rw [hr]
      rfl

/-- Witness for C6 as amended: a concrete fresh encode carries the joined
composite, and a two-part composite decodes with the trailing two fields
left at the default. -/
theorem C6_identity_composite_witness :
    getAttr ((setMetaData parseNone [] mLeadingSpace).getD []) nUser
      = some (.text ["/ x//".toList]) ∧
    (getMetaData formatNil [(nUser, AttrVal.text ["o/u".toList])]).orcid = "o".toList ∧
    (getMetaData formatNil [(nUser, AttrVal.text ["o/u".toList])]).user = "u".toList ∧
    (getMetaData formatNil [(nUser, AttrVal.text ["o/u".toList])]).email = [] ∧
    (getMetaData formatNil [(nUser, AttrVal.text ["o/u".toList])]).institution = [] := by
  have h₁ := C6_identity_composite.1 parseNone mLeadingSpace
    ((setMetaData parseNone [] mLeadingSpace).getD []) (by decide)
  have h₂ := C6_identity_composite.2.2 formatNil
    [(nUser, AttrVal.text ["o/u".toList])] ("o/u".toList) [] rfl
  obtain ⟨e₀, e₁, e₂, e₃⟩ := h₂
  rw [h₁, e₀, e₁, e₂, e₃]
  refine ⟨by decide, by decide, by decide, by decide, by decide⟩

/-! ## Claim C8 -/

/-- C8: adding a dataset under a fresh name stores exactly the shape of the
in-memory array and exactly its elements, and reading the dataset back
yields both unchanged; element values (for the canonical form, f32 bit
patterns) are opaque to the codec, so no conversion can occur. -/
theorem C8_dataset_exact_roundtrip {α : Type} (g : Datasets α) (n : Str) (arr : ArrayView α)
    (h : getDataset g n = none) :
    ∃ g', addDataset g n arr = some g' ∧
      getDataset g' n = some ⟨arr.shape, arr.data⟩ := by
  refine ⟨(n, ⟨arr.shape, arr.data⟩) :: g, ?_, ?_⟩
  · unfold addDataset
    rw [h]
  · unfold getDataset
    simp

/-- Witness for C8 on the spec's 3-by-2 example array (elements as opaque
bit patterns). -/
theorem C8_dataset_exact_roundtrip_witness :
    ∃ g', addDataset ([] : Datasets Nat) ("ds1".toList) ⟨[3, 2], [1, 2, 3, 4, 3, 4]⟩ = some g' ∧
      getDataset g' ("ds1".toList) = some ⟨[3, 2], [1, 2, 3, 4, 3, 4]⟩ :=
  C8_dataset_exact_roundtrip [] ("ds1".toList) ⟨[3, 2], [1, 2, 3, 4, 3, 4]⟩ rfl


/-! ## Claim C1 -/

/-- Counterexample to C1: the round trip is not exact for arbitrary text —
a user field with a leading space comes back trimmed (the identity-quartet
decode trims each subfield, and an embedded `/` would likewise corrupt the
positional split). -/
theorem C1_counterexample :
    (setMetaData parseNone [] mLeadingSpace).map
      (fun a => (getMetaData formatNil a).user) = some "x".toList ∧
    mLeadingSpace.user ≠ "x".toList := by
  refine ⟨by decide, by decide⟩

/-- C1 as amended: after a successful encode into a fresh group, decode
reproduces the six non-identity scalar fields (description, mode,
instrument, time, date, version) exactly, with no side condition; the four
identity-quartet fields (orcid, user, email, institution) are reproduced
exactly whenever they contain no `/` and carry no surrounding whitespace
(they equal their trim). -/
theorem C1_scalar_roundtrip (p : Str → Option Nat) (f : Nat → Str)
    (m : DotthzMetaData) (a : Attrs)
    (h : setMetaData p [] m = some a) :
    ((getMetaData f a).description = m.description ∧
     (getMetaData f a).mode = m.mode ∧
     (getMetaData f a).instrument = m.instrument ∧
     (getMetaData f a).time = m.time ∧
     (getMetaData f a).date = m.date ∧
     (getMetaData f a).version = m.version) ∧
    (('/' : Char) ∉ m.orcid → ('/' : Char) ∉ m.user →
     ('/' : Char) ∉ m.email → ('/' : Char) ∉ m.institution →
     rustTrim m.orcid = m.orcid → rustTrim m.user = m.user →
     rustTrim m.email = m.email → rustTrim m.institution = m.institution →
     (getMetaData f a).user = m.user ∧
     (getMetaData f a).email = m.email ∧
     (getMetaData f a).orcid = m.orcid ∧
     (getMetaData f a).institution = m.institution) := by
  obtain ⟨hDesc, hDate, hInstr, hMode, hVer, hTime, hUser, _, _, _, _⟩ :=
    setMetaData_lookup allText_nil h
  have hrUser : readRawText a nUser = some [userComposite m] := by
    unfold readRawText
    rw [hUser]
  constructor
  · refine ⟨?_, ?_, ?_, ?_, ?_, ?_⟩
    · rw [getMetaData_description]
      unfold scalarField readRawText
      rw [hDesc]
      rfl
    · rw [getMetaData_mode]
      unfold scalarField readRawText
      rw [hMode]
      rfl
    · rw [getMetaData_instrument]
      unfold scalarField readRawText
      rw [hInstr]
      rfl
    · rw [getMetaData_time]
      unfold scalarField readRawText
      rw [hTime]
      rfl
    · rw [getMetaData_date]
      unfold scalarField readRawText
      rw [hDate]
      rfl
    · rw [getMetaData_version]
      unfold scalarField readRawText
      rw [hVer]
      rfl
  · intro ho hu he hi tro tru tre tri
    have hsplit := splitChar_userComposite ho hu he hi
    refine ⟨?_, ?_, ?_, ?_⟩
    · rw [getMetaData_user]
      unfold userField
      rw [hrUser]
      show (List.get? (splitChar '/' (userComposite m)) 1).elim [] rustTrim = m.user
      rw [hsplit]
      exact tru
    · rw [getMetaData_email]
      unfold userField
      rw [hrUser]
      show (List.get? (splitChar '/' (userComposite m)) 2).elim [] rustTrim = m.email
      rw [hsplit]
      exact tre
    · rw [getMetaData_orcid, userField_zero, hrUser]
      show ((splitChar '/' (userComposite m)).head?).elim [] rustTrim = m.orcid
      rw [hsplit]
      exact tro
    · rw [getMetaData_institution]
      unfold userField
      rw [hrUser]
      show (List.get? (splitChar '/' (userComposite m)) 3).elim [] rustTrim = m.institution
      rw [hsplit]
      exact tri

/-- A concrete record with all ten scalar fields populated, its quartet
slash-free and trim-invariant. -/
def mRound : DotthzMetaData :=
  { user := "Test User".toList, email := "t@e.c".toList, orcid := "0-1".toList,
    institution := "TI".toList, description := "d".toList,
    md := [("k".toList, "v".toList)], ds_description := ["ds1".toList],
    version := "1.0".toList, mode := "tm".toList, instrument := "ti".toList,
    time := "12:34".toList, date := "2024".toList }

/-- The store produced by encoding `mRound` into a fresh group. -/
def aRound : Attrs := (setMetaData parseNone [] mRound).getD []

/-- Witness for C1 as amended, on a fully populated concrete record: the
six fields from the unconditional part, the quartet from the conditional
part with its conditions discharged concretely. -/
theorem C1_scalar_roundtrip_witness :
    ((getMetaData formatNil aRound).description = mRound.description ∧
     (getMetaData formatNil aRound).mode = mRound.mode ∧
     (getMetaData formatNil aRound).instrument = mRound.instrument ∧
     (getMetaData formatNil aRound).time = mRound.time ∧
     (getMetaData formatNil aRound).date = mRound.date ∧
     (getMetaData formatNil aRound).version = mRound.version) ∧
    ((getMetaData formatNil aRound).user = mRound.user ∧
     (getMetaData formatNil aRound).email = mRound.email ∧
     (getMetaData formatNil aRound).orcid = mRound.orcid ∧
     (getMetaData formatNil aRound).institution = mRound.institution) :=
  ⟨(C1_scalar_roundtrip parseNone formatNil mRound aRound (by decide)).1,
   (C1_scalar_roundtrip parseNone formatNil mRound aRound (by decide)).2
     (by decide) (by decide) (by decide) (by decide)
     (by decide) (by decide) (by decide) (by decide)⟩


/-! ## Claim C9 -/

theorem meta_ext {m₁ m₂ : DotthzMetaData}
    (h₁ : m₁.user = m₂.user) (h₂ : m₁.email = m₂.email) (h₃ : m₁.orcid = m₂.orcid)
    (h₄ : m₁.institution = m₂.institution) (h₅ : m₁.description = m₂.description)
    (h₆ : m₁.md = m₂.md) (h₇ : m₁.ds_description = m₂.ds_description)
    (h₈ : m₁.version = m₂.version) (h₉ : m₁.mode = m₂.mode)
    (h₁₀ : m₁.instrument = m₂.instrument) (h₁₁ : m₁.time = m₂.time)
    (h₁₂ : m₁.date = m₂.date) : m₁ = m₂ := by
  cases m₁
  cases m₂
  simp_all

theorem scalarField_congr {a b : Attrs} {n : Str} (h : getAttr a n = getAttr b n) :
    scalarField a n = scalarField b n := by
  unfold scalarField
  rw [readRawText_congr h]

theorem userField_congr {a b : Attrs} (h : getAttr a nUser = getAttr b nUser) (k : Nat) :
    userField a k = userField b k := by
  unfold userField
  rw [readRawText_congr h]

/-- A record with two annotation entries. -/
def m9Two : DotthzMetaData :=
  { defaultMeta with md := [("a".toList, "x".toList), ("b".toList, "y".toList)] }

/-- A record with one annotation entry. -/
def m9One : DotthzMetaData :=
  { defaultMeta with md := [("a".toList, "x".toList)] }

/-- Counterexample to C9: encoding a one-entry record over a group that was
previously encoded with a two-entry record leaves the stale attribute `md2`
on the group, while a fresh encode of the same record has no `md2` — so the
codec-owned attribute set after re-encode differs from a full rewrite. -/
theorem C9_counterexample :
    ((setMetaData parseNone [] m9Two).bind (fun a₁ => setMetaData parseNone a₁ m9One)).map
      (fun a₂ => (getAttr a₂ (mdName 1)).isSome) = some true ∧
    (setMetaData parseNone [] m9One).map
      (fun b₂ => (getAttr b₂ (mdName 1)).isSome) = some false := by
  refine ⟨by decide, by decide⟩

/-- C9 as amended: re-encoding is only observably equivalent to a full
rewrite up to decode (stale `md` attributes beyond the new record's length
survive but are not consulted): if a record is successfully encoded over a
group previously encoded on a fresh group, and the new record has at least
one annotation and no annotation key containing the separator of a comma
followed by a space, then decoding the re-encoded group gives the same
record as decoding a fresh encode of the same record. -/
theorem C9_reencode_decode_equiv (p : Str → Option Nat) (f : Nat → Str)
    (m₁ m₂ : DotthzMetaData) (a₁ a₂ b₂ : Attrs)
    (h₁ : setMetaData p [] m₁ = some a₁)
    (h₂ : setMetaData p a₁ m₂ = some a₂)
    (h₃ : setMetaData p [] m₂ = some b₂)
    (hne : m₂.md ≠ [])
    (hsep : ∀ k ∈ m₂.md.map Prod.fst, containsCommaSpace k = false) :
    getMetaData f a₂ = getMetaData f b₂ := by
  have hT₁ : allText a₁ := (setMetaData_lookup allText_nil h₁).2.2.2.2.2.2.2.2.2.2
  obtain ⟨aDesc, aDate, aInstr, aMode, aVer, aTime, aUser, aMdD, aDsD, aMd, _⟩ :=
    setMetaData_lookup hT₁ h₂
  obtain ⟨bDesc, bDate, bInstr, bMode, bVer, bTime, bUser, bMdD, bDsD, bMd, _⟩ :=
    setMetaData_lookup allText_nil h₃
  have hkeysne : m₂.md.map Prod.fst ≠ [] := fun hnil => hne (by simpa using hnil)
  have hjs : splitCommaSpace (joinCommaSpace (m₂.md.map Prod.fst)) = m₂.md.map Prod.fst :=
    splitCS_join hkeysne hsep
  have eqD : getAttr a₂ nDescription = getAttr b₂ nDescription := by rw [aDesc, bDesc]
  have eqDa : getAttr a₂ nDate = getAttr b₂ nDate := by rw [aDate, bDate]
  have eqI : getAttr a₂ nInstrument = getAttr b₂ nInstrument := by rw [aInstr, bInstr]
  have eqMo : getAttr a₂ nMode = getAttr b₂ nMode := by rw [aMode, bMode]
  have eqV : getAttr a₂ nThzVer = getAttr b₂ nThzVer := by rw [aVer, bVer]
  have eqT : getAttr a₂ nTime = getAttr b₂ nTime := by rw [aTime, bTime]
  have eqU : getAttr a₂ nUser = getAttr b₂ nUser := by rw [aUser, bUser]
  have eqDs : getAttr a₂ nDsDescription = getAttr b₂ nDsDescription := by rw [aDsD, bDsD]
  have eqMdN : ∀ j, j < m₂.md.length → getAttr a₂ (mdName j) = getAttr b₂ (mdName j) := by
    intro j hj
    have hkv : m₂.md.get? j = some (m₂.md.get ⟨j, hj⟩) := List.get?_eq_get hj
    rw [aMd j _ hkv, bMd j _ hkv]
  refine meta_ext ?_ ?_ ?_ ?_ ?_ ?_ ?_ ?_ ?_ ?_ ?_ ?_
  · rw [getMetaData_user, getMetaData_user]
    exact userField_congr eqU 1
  · rw [getMetaData_email, getMetaData_email]
    exact userField_congr eqU 2
  · rw [getMetaData_orcid, getMetaData_orcid]
    exact userField_congr eqU 0
  · rw [getMetaData_institution, getMetaData_institution]
    exact userField_congr eqU 3
  · rw [getMetaData_description, getMetaData_description]
    exact scalarField_congr eqD
  · rw [getMetaData_md, getMetaData_md]
    have hra : readRawText a₂ nMdDescription = some [joinCommaSpace (m₂.md.map Prod.fst)] := by
      unfold readRawText
      rw [aMdD]
    have hrb : readRawText b₂ nMdDescription = some [joinCommaSpace (m₂.md.map Prod.fst)] := by
      unfold readRawText
      rw [bMdD]
    rw [hra, hrb]
    show mdReadLoop f a₂ (unpackDescriptor [joinCommaSpace (m₂.md.map Prod.fst)]) 0 []
      = mdReadLoop f b₂ (unpackDescriptor [joinCommaSpace (m₂.md.map Prod.fst)]) 0 []
    rw [show unpackDescriptor [joinCommaSpace (m₂.md.map Prod.fst)]
        = splitCommaSpace (joinCommaSpace (m₂.md.map Prod.fst)) from rfl, hjs]
    refine mdReadLoop_congr (m₂.md.map Prod.fst) 0 [] ?_
    intro j hj
    have hj' : j < m₂.md.length := by simpa using hj
    simpa using eqMdN j hj'
  · rw [getMetaData_ds_description, getMetaData_ds_description, readRawText_congr eqDs]
  · rw [getMetaData_version, getMetaData_version]
    exact scalarField_congr eqV
  · rw [getMetaData_mode, getMetaData_mode]
    exact scalarField_congr eqMo
  · rw [getMetaData_instrument, getMetaData_instrument]
    exact scalarField_congr eqI
  · rw [getMetaData_time, getMetaData_time]
    exact scalarField_congr eqT
  · rw [getMetaData_date, getMetaData_date]
    exact scalarField_congr eqDa

/-- The store after encoding the two-entry record on a fresh group. -/
def a9Mid : Attrs := (setMetaData parseNone [] m9Two).getD []

/-- The store after re-encoding the one-entry record over `a9Mid`. -/
def a9Re : Attrs := (setMetaData parseNone a9Mid m9One).getD []

/-- The store after encoding the one-entry record on a fresh group. -/
def b9Fresh : Attrs := (setMetaData parseNone [] m9One).getD []

/-- Witness for C9 as amended, on the two concrete records of the
counterexample. -/
theorem C9_reencode_decode_equiv_witness :
    getMetaData formatNil a9Re = getMetaData formatNil b9Fresh :=
  C9_reencode_decode_equiv parseNone formatNil m9Two m9One a9Mid a9Re b9Fresh
    (by decide) (by decide) (by decide) (by decide) (by decide)

end Dotthz
